import Mathlib

/-!
Verification of the repository-analysis pipeline ("RepoGist").

Each component referenced by the checked properties is embedded shallowly:

* `RateLimit` — `src/app/api/analyze/rate-limit.ts` (`checkRateLimit`,
  `cleanupExpiredRecords`).  The module constants `RATE_LIMIT.WINDOW_MS` and
  `RATE_LIMIT.MAX_REQUESTS` come from a config module that is not part of the
  sources, so the embedding is parameterised by a `Config` record.
* `CodeAnalyzer` — `src/app/api/analyze/code-analyzer.ts` (`calculateScores`).
* `Mermaid` — the diagram codec (`sanitizeId`, `sanitizeLabel`,
  `validateMermaidSyntax`, the three generators and `processDiagrams`).
* `AnalyzeRoute` — the admission prefix of the `POST` handler of the analyze
  route (configuration gate, rate limit, body-size checks, JSON parse).
* `UseAnalysis` — the `done`-frame handling of the stream consumer in
  `src/hooks/use-analysis.ts`.

JavaScript `Map`s are embedded as association lists whose `set` preserves the
position of an existing key, numbers as `Int`/`Nat`, and `Date.now()` /
`Math.random()` as explicit parameters.
-/

namespace RateLimit

/-- The two constants of `RATE_LIMIT` from the (absent) config module. -/
structure Config where
  windowMs : Int
  maxRequests : Nat
  deriving Repr, DecidableEq

/-- `RateLimitRecord`: per-client count plus window-reset timestamp. -/
structure RateLimitRecord where
  count : Nat
  resetTime : Int
  deriving Repr, DecidableEq

/-- `RateLimitResult` as returned by `checkRateLimit`. -/
structure RateLimitResult where
  allowed : Bool
  remaining : Int
  deriving Repr, DecidableEq

/-- The shared `rateLimitMap`, embedded as an association list. -/
abbrev RLState := List (String × RateLimitRecord)

/-- `Map.get`: the value stored for `ip`, if any. -/
def mapGet (m : RLState) (ip : String) : Option RateLimitRecord :=
  (m.find? (fun p => p.1 = ip)).map Prod.snd

/-- `Map.set`: overwrite the entry for `ip` in place, or append a new one. -/
def mapSet (m : RLState) (ip : String) (r : RateLimitRecord) : RLState :=
  if m.any (fun p => p.1 = ip) then
    m.map (fun p => if p.1 = ip then (ip, r) else p)
  else
    m ++ [(ip, r)]

/-- `checkRateLimit` from `rate-limit.ts`, with `Date.now()` passed in as
`now`.  The in-place `record.count++` of the source becomes a `mapSet` that
keeps the record's `resetTime`. -/
def checkRateLimit (cfg : Config) (now : Int) (ip : String) (m : RLState) :
    RateLimitResult × RLState :=
  match mapGet m ip with
  | none =>
      ({ allowed := true, remaining := (cfg.maxRequests : Int) - 1 },
       mapSet m ip { count := 1, resetTime := now + cfg.windowMs })
  | some record =>
      if now > record.resetTime then
        ({ allowed := true, remaining := (cfg.maxRequests : Int) - 1 },
         mapSet m ip { count := 1, resetTime := now + cfg.windowMs })
      else if record.count ≥ cfg.maxRequests then
        ({ allowed := false, remaining := 0 }, m)
      else
        ({ allowed := true,
           remaining := (cfg.maxRequests : Int) - (record.count + 1) },
         mapSet m ip { count := record.count + 1, resetTime := record.resetTime })

/-- `cleanupExpiredRecords`: drop every record whose reset time has passed. -/
def cleanupExpiredRecords (now : Int) (m : RLState) : RLState :=
  m.filter (fun p => decide (¬ now > p.2.resetTime))

/-- A sequence of `checkRateLimit` calls for one client at the given times;
returns the `allowed` flags in order together with the final map. -/
def runCalls (cfg : Config) (ip : String) : List Int → RLState → List Bool × RLState
  | [], m => ([], m)
  | t :: ts, m =>
      let step := checkRateLimit cfg t ip m
      let rest := runCalls cfg ip ts step.2
      (step.1.allowed :: rest.1, rest.2)

/-- One operation on the shared map: a rate-limit check or a cleanup sweep. -/
inductive RLOp
  | check (now : Int) (ip : String)
  | sweep (now : Int)
  deriving Repr, DecidableEq

/-- Run a sequence of operations, collecting every `RateLimitResult` that a
`check` returns. -/
def runOps (cfg : Config) : List RLOp → RLState → List RateLimitResult × RLState
  | [], m => ([], m)
  | .check now ip :: ops, m =>
      let step := checkRateLimit cfg now ip m
      let rest := runOps cfg ops step.2
      (step.1 :: rest.1, rest.2)
  | .sweep now :: ops, m =>
      runOps cfg ops (cleanupExpiredRecords now m)

/-- Well-formedness of the shared map: every stored count is in
`[1, maxRequests]`. -/
def WF (cfg : Config) (m : RLState) : Prop :=
  ∀ p ∈ m, 1 ≤ p.2.count ∧ p.2.count ≤ cfg.maxRequests

end RateLimit

namespace CodeAnalyzer

/-- `readmeQuality` levels from `code-analyzer.ts`. -/
inductive ReadmeQuality
  | missing | minimal | basic | good | excellent
  deriving Repr, DecidableEq

/-- The three code-pattern booleans of `CodeMetrics`. -/
structure CodePatterns where
  hasErrorHandling : Bool
  hasLogging : Bool
  hasValidation : Bool
  deriving Repr, DecidableEq

/-- `CodeMetrics` from `code-analyzer.ts`. -/
structure CodeMetrics where
  hasTests : Bool
  testFileCount : Nat
  hasCI : Bool
  ciProvider : Option String
  hasLinting : Bool
  hasTypeScript : Bool
  strictMode : Bool
  hasPrettier : Bool
  hasSecurityConfig : Bool
  hasEnvExample : Bool
  exposedSecrets : List String
  hasChangelog : Bool
  hasContributing : Bool
  hasLicense : Bool
  readmeQuality : ReadmeQuality
  dependencyCount : Nat
  devDependencyCount : Nat
  vulnerablePatterns : List String
  largeFiles : List String
  codePatterns : CodePatterns
  missingEssentials : List String
  existingAutomations : List String
  deriving Repr, DecidableEq

/-- The `rmScore` table inside `calculateScores`. -/
def rmScore : ReadmeQuality → Int
  | .missing => 0
  | .minimal => 10
  | .basic => 25
  | .good => 40
  | .excellent => 50

/-- Render a `ReadmeQuality` the way the factor string interpolates it. -/
def readmeQualityText : ReadmeQuality → String
  | .missing => "missing"
  | .minimal => "minimal"
  | .basic => "basic"
  | .good => "good"
  | .excellent => "excellent"

/-- One entry of the `breakdown` record: a category score and its factors. -/
structure CategoryBreakdown where
  score : Int
  factors : List String
  deriving Repr, DecidableEq

/-- The value returned by `calculateScores`. -/
structure Scores where
  overall : Int
  codeQuality : Int
  documentation : Int
  security : Int
  maintainability : Int
  testCoverage : Int
  dependencies : Int
  breakdownCodeQuality : CategoryBreakdown
  breakdownDocumentation : CategoryBreakdown
  breakdownSecurity : CategoryBreakdown
  breakdownMaintainability : CategoryBreakdown
  breakdownTestCoverage : CategoryBreakdown
  breakdownDependencies : CategoryBreakdown
  deriving Repr, DecidableEq

/-- `Math.round` for a non-negative sum of twentieths: the exact weighted sum
`0.20·a + 0.15·b + … = n / 20` rounds (half away from zero, as `Math.round`
does for non-negative arguments) to `⌊(n + 10) / 20⌋`. -/
def roundTwentieths (n : Int) : Int := (n + 10) / 20

/-- `calculateScores` from `code-analyzer.ts`.  The conditional additive
adjustments are embedded one-for-one; `Math.min`/`Math.max` clamps appear
exactly where the source has them.  The overall score
`Math.round(cq*0.2 + doc*0.15 + sec*0.2 + maint*0.2 + test*0.15 + dep*0.1)`
is computed in exact arithmetic over twentieths. -/
def calculateScores (metrics : CodeMetrics) : Scores :=
  let cq0 : Int := 50
  let cq1 := if metrics.hasTypeScript then cq0 + 20 else cq0
  let cq2 := if metrics.strictMode then cq1 + 10 else cq1
  let cq3 := if metrics.hasLinting then cq2 + 10 else cq2
  let cq4 := if metrics.hasPrettier then cq3 + 5 else cq3
  let cq5 := if metrics.codePatterns.hasErrorHandling then cq4 + 5 else cq4
  let cqf : List String :=
    (if metrics.hasTypeScript then ["+20: TypeScript"] else []) ++
    (if metrics.strictMode then ["+10: Strict"] else []) ++
    (if metrics.hasLinting then ["+10: Linting"] else []) ++
    (if metrics.hasPrettier then ["+5: Prettier"] else []) ++
    (if metrics.codePatterns.hasErrorHandling then ["+5: Error handling"] else [])
  let codeQuality : CategoryBreakdown := { score := min 100 cq5, factors := cqf }
  let doc0 : Int := 30 + rmScore metrics.readmeQuality
  let doc1 := if metrics.hasChangelog then doc0 + 10 else doc0
  let doc2 := if metrics.hasLicense then doc1 else doc1 - 15
  let docf : List String :=
    ["README: " ++ readmeQualityText metrics.readmeQuality] ++
    (if metrics.hasChangelog then ["+10: CHANGELOG"] else []) ++
    (if metrics.hasLicense then [] else ["-15: No LICENSE"])
  let documentation : CategoryBreakdown :=
    { score := max 0 (min 100 doc2), factors := docf }
  let sec0 : Int := 70
  let sec1 := if metrics.hasSecurityConfig then sec0 + 15 else sec0
  let sec2 := if metrics.exposedSecrets.length > 0 then sec1 - 30 else sec1
  let sec3 := if metrics.vulnerablePatterns.length > 0 then sec2 - 15 else sec2
  let secf : List String :=
    (if metrics.hasSecurityConfig then ["+15: Security config"] else []) ++
    (if metrics.exposedSecrets.length > 0 then ["-30: Secrets exposed"] else []) ++
    (if metrics.vulnerablePatterns.length > 0 then ["-15: Deprecated deps"] else [])
  let security : CategoryBreakdown :=
    { score := max 0 (min 100 sec3), factors := secf }
  let m0 : Int := 50
  let m1 := if metrics.hasCI then m0 + 25 else m0
  let m2 := if metrics.hasTypeScript then m1 + 15 else m1
  let m3 := if metrics.hasLinting then m2 + 10 else m2
  let mf : List String :=
    (if metrics.hasCI then
      ["+25: " ++ (metrics.ciProvider.getD "null")] else []) ++
    (if metrics.hasTypeScript then ["+15: Types"] else []) ++
    (if metrics.hasLinting then ["+10: Linting"] else [])
  let maintainability : CategoryBreakdown := { score := min 100 m3, factors := mf }
  let t0 : Int := 20
  let t1 := if metrics.hasTests then t0 + 50 else t0
  let t2 := if metrics.hasCI then t1 + 10 else t1
  let tf : List String :=
    (if metrics.hasTests then ["+50: Tests exist"] else []) ++
    (if metrics.hasCI then ["+10: CI"] else [])
  let testCoverage : CategoryBreakdown := { score := min 100 t2, factors := tf }
  let d0 : Int := 80
  let d1 := if metrics.vulnerablePatterns.length > 0 then d0 - 20 else d0
  let d2 := if metrics.dependencyCount > 50 then d1 - 10 else d1
  let df : List String :=
    (if metrics.vulnerablePatterns.length > 0 then ["-20: Deprecated"] else []) ++
    (if metrics.dependencyCount > 50 then ["-10: Heavy"] else [])
  let dependencies : CategoryBreakdown := { score := max 0 d2, factors := df }
  let overall := roundTwentieths
    (4 * codeQuality.score + 3 * documentation.score + 4 * security.score +
     4 * maintainability.score + 3 * testCoverage.score + 2 * dependencies.score)
  { overall := overall
    codeQuality := codeQuality.score
    documentation := documentation.score
    security := security.score
    maintainability := maintainability.score
    testCoverage := testCoverage.score
    dependencies := dependencies.score
    breakdownCodeQuality := codeQuality
    breakdownDocumentation := documentation
    breakdownSecurity := security
    breakdownMaintainability := maintainability
    breakdownTestCoverage := testCoverage
    breakdownDependencies := dependencies }

/-- Rounding half away from zero on rationals, i.e. `Math.round` on the
non-negative weighted sums that occur here. -/
def roundRat (q : ℚ) : Int := ⌊q + 1 / 2⌋

end CodeAnalyzer

namespace Mermaid

/-- `MermaidDiagram.type` values. -/
inductive DiagramType
  | flowchart | sequenceDiagram | classDiagram | graph
  deriving Repr, DecidableEq

/-- `MermaidDiagram` from the diagram codec. -/
structure MermaidDiagram where
  type : DiagramType
  title : String
  code : String
  deriving Repr, DecidableEq

/-- `DiagramsData`: the three optional diagram slots. -/
structure DiagramsData where
  architecture : Option MermaidDiagram
  dataFlow : Option MermaidDiagram
  components : Option MermaidDiagram
  deriving Repr, DecidableEq

/-- `ArchitectureComponent` (the fields the codec reads). -/
structure ArchitectureComponent where
  id : String
  type : String
  name : String
  technologies : Option (List String)
  connections : Option (List String)
  deriving Repr, DecidableEq

/-- `DataFlowNode` (the fields the codec reads). -/
structure DataFlowNode where
  id : String
  type : String
  name : String
  deriving Repr, DecidableEq

/-- `DataFlowEdge`; `from` and `to` are Lean keywords, hence the underscores. -/
structure DataFlowEdge where
  from_ : String
  to_ : String
  label : Option String
  dataType : Option String
  deriving Repr, DecidableEq

/-- The character class `[a-zA-Z0-9_-]` kept by `sanitizeId`. -/
def isIdChar (c : Char) : Bool := c.isAlphanum || c = '_' || c = '-'

/-- The non-empty path of `sanitizeId` before the 30-character cap:
`replace(/[^a-zA-Z0-9_-]/g, "_")` then `replace(/^[^a-zA-Z]/, "n")`. -/
def sanitizeIdCore (l : List Char) : List Char :=
  match l.map (fun c => if isIdChar c then c else '_') with
  | [] => []
  | c :: cs => if c.isAlpha then c :: cs else 'n' :: cs

/-- `sanitizeId`.  The source falls back to
`` `node_${Date.now()}_${Math.random().toString(36).slice(2, 6)}` `` for a
falsy input; `Date.now()` is passed in as `now` and the four random base-36
characters as `rand`. -/
def sanitizeId (now : Nat) (rand : String) (id : String) : String :=
  if id = "" then "node_" ++ toString now ++ "_" ++ rand
  else String.mk ((sanitizeIdCore id.data).take 30)

/-- The simultaneous single-character replacements of `sanitizeLabel`:
parentheses and braces to square brackets, double quote to single quote,
angle brackets to `‹`/`›`, pipe to `¦`, newline to space. -/
def replaceLabelChar (c : Char) : Char :=
  if c = '(' then '['
  else if c = ')' then ']'
  else if c = '"' then '\''
  else if c = '<' then '‹'
  else if c = '>' then '›'
  else if c = '|' then '¦'
  else if c = '\x7b' then '['
  else if c = '\x7d' then ']'
  else if c = '\n' then ' '
  else c

/-- Replace every maximal run of whitespace by a single space
(the `replace(/\s+/g, " ")` step). -/
def collapseWsAux : Bool → List Char → List Char
  | _, [] => []
  | inWs, c :: cs =>
    if c.isWhitespace then
      if inWs then collapseWsAux true cs else ' ' :: collapseWsAux true cs
    else c :: collapseWsAux false cs

/-- Strip leading and trailing whitespace from a character list. -/
def trimChars (l : List Char) : List Char :=
  ((l.dropWhile Char.isWhitespace).reverse.dropWhile Char.isWhitespace).reverse

/-- `sanitizeLabel`: character replacements, carriage-return removal,
whitespace collapsing, trim, and the 40-character cap. -/
def sanitizeLabel (text : String) : String :=
  if text = "" then "Unknown"
  else
    let step1 := text.data.map replaceLabelChar
    let step2 := step1.filter (fun c => c ≠ '\r')
    let step3 := collapseWsAux false step2
    String.mk ((trimChars step3).take 40)

/-- The `validStarts` keyword list of `validateMermaidSyntax`, verbatim. -/
def validStarts : List String :=
  ["flowchart", "graph", "sequenceDiagram", "classDiagram", "stateDiagram",
   "erDiagram", "gantt", "pie", "mindmap"]

/-- `validateMermaidSyntax`: reject falsy input, then test whether the
trimmed, lower-cased text starts with one of the `validStarts` entries
(`code.trim().toLowerCase().startsWith(start)`, expressed over the
character list). -/
def validateMermaidSyntax (code : String) : Bool :=
  if code = "" then false
  else
    let trimmed := (trimChars code.data).map Char.toLower
    validStarts.any (fun s => s.data.isPrefixOf trimmed)

end Mermaid

namespace Mermaid

/-- Node shape brackets; `openB`/`closeB` because `open` is a Lean keyword. -/
structure NodeShape where
  openB : String
  closeB : String
  deriving Repr, DecidableEq

/-- `getNodeShape` for architecture components (`shapes[type] || shapes.backend`). -/
def getNodeShape (type : String) : NodeShape :=
  if type = "frontend" then ⟨"[", "]"⟩
  else if type = "backend" then ⟨"[[", "]]"⟩
  else if type = "database" then ⟨"[(", ")]"⟩
  else if type = "service" then ⟨"\x7b\x7b", "\x7d\x7d"⟩
  else if type = "external" then ⟨"[/", "/]"⟩
  else if type = "middleware" then ⟨"[", "]"⟩
  else ⟨"[[", "]]"⟩

/-- The `nodeStyles` table of `generateDataFlowDiagram`
(`nodeStyles[type] || nodeStyles.process`). -/
def dataFlowShape (type : String) : NodeShape :=
  if type = "source" then ⟨"([", "])"⟩
  else if type = "process" then ⟨"[", "]"⟩
  else if type = "store" then ⟨"[(", ")]"⟩
  else if type = "output" then ⟨"[[", "]]"⟩
  else ⟨"[", "]"⟩

/-- A JavaScript `Map<string, string>`/plain-object store: `set` overwrites in
place, later writes win. -/
def strMapSet (m : List (String × String)) (k v : String) : List (String × String) :=
  if m.any (fun p => p.1 = k) then
    m.map (fun p => if p.1 = k then (k, v) else p)
  else m ++ [(k, v)]

/-- Lookup in a JavaScript string map. -/
def strMapGet (m : List (String × String)) (k : String) : Option String :=
  (m.find? (fun p => p.1 = k)).map Prod.snd

/-- `typeGroups[type].push(idv)`, creating the key on first use
(JS object insertion order). -/
def groupAdd (gs : List (String × List String)) (ty idv : String) :
    List (String × List String) :=
  if gs.any (fun g => g.1 = ty) then
    gs.map (fun g => if g.1 = ty then (g.1, g.2 ++ [idv]) else g)
  else gs ++ [(ty, [idv])]

/-- `Object.entries(typeGroups)` rendered as `class` style lines. -/
def classLines (gs : List (String × List String)) : List String :=
  (gs.filter (fun g => g.2.length > 0)).map
    (fun g => "    class " ++ String.intercalate "," g.2 ++ " " ++ g.1)

/-- An environment standing for `Date.now()` / `Math.random()`: the `i`-th
`sanitizeId` call of a generator run draws its fallback seed from `fresh i`. -/
abbrev Fresh := Nat → Nat × String

/-- `sanitizeId` at the `i`-th call of a generator run. -/
def sanitizeIdAt (fresh : Fresh) (i : Nat) (id : String) : String :=
  sanitizeId (fresh i).1 (fresh i).2 id

/-- The node line of `generateArchitectureDiagram` for one component. -/
def archNodeLine (fresh : Fresh) (i : Nat) (c : ArchitectureComponent) : String :=
  let safeId := sanitizeIdAt fresh i c.id
  let shape := getNodeShape c.type
  let label := sanitizeLabel c.name
  let tech : Option String :=
    c.technologies.map (fun ts => String.intercalate ", " ((ts.take 2).map sanitizeLabel))
  let fullLabel :=
    match tech with
    | some t => if t ≠ "" then label ++ "<br/><small>" ++ t ++ "</small>" else label
    | none => label
  "    " ++ safeId ++ shape.openB ++ "\"" ++ fullLabel ++ "\"" ++ shape.closeB

/-- First pass of `generateArchitectureDiagram`: node lines and type groups. -/
def archNodePass (fresh : Fresh) (components : List ArchitectureComponent) :
    List String × List (String × List String) :=
  (components.enum.foldl
    (fun acc p =>
      (acc.1 ++ [archNodeLine fresh p.1 p.2],
       groupAdd acc.2 p.2.type (sanitizeIdAt fresh p.1 p.2.id)))
    ([], []))

/-- The `idMap` of `generateArchitectureDiagram`: a second round of
`sanitizeId` calls, continuing the call counter past the node pass. -/
def archIdMap (fresh : Fresh) (components : List ArchitectureComponent) :
    List (String × String) :=
  components.enum.foldl
    (fun m p => strMapSet m p.2.id (sanitizeIdAt fresh (components.length + p.1) p.2.id))
    []

/-- Connection lines for one component's `connections`, threading the
`addedConnections` dedup set. -/
def addConns (idMap : List (String × String)) (fromId : String) :
    List String → List String → List String × List String
  | [], added => ([], added)
  | t :: ts, added =>
    match strMapGet idMap t with
    | none => addConns idMap fromId ts added
    | some toId =>
      let key := fromId ++ "-" ++ toId
      let rkey := toId ++ "-" ++ fromId
      if added.contains key || added.contains rkey then
        addConns idMap fromId ts added
      else
        let rest := addConns idMap fromId ts (added ++ [key])
        (("    " ++ fromId ++ " --> " ++ toId) :: rest.1, rest.2)

/-- Connection pass over all components. -/
def allConns (idMap : List (String × String)) :
    List ArchitectureComponent → List String → List String × List String
  | [], added => ([], added)
  | c :: cs, added =>
    match strMapGet idMap c.id with
    | none => allConns idMap cs added
    | some fromId =>
      let r1 := addConns idMap fromId (c.connections.getD []) added
      let r2 := allConns idMap cs r1.2
      (r1.1 ++ r2.1, r2.2)

/-- The fixed `classDef` style lines of `generateArchitectureDiagram`. -/
def archStyleLines : List String :=
  ["",
   "    classDef frontend fill:#3b82f6,stroke:#1d4ed8,color:#fff",
   "    classDef backend fill:#10b981,stroke:#059669,color:#fff",
   "    classDef database fill:#8b5cf6,stroke:#6d28d9,color:#fff",
   "    classDef service fill:#f59e0b,stroke:#d97706,color:#fff",
   "    classDef external fill:#6b7280,stroke:#4b5563,color:#fff",
   "    classDef middleware fill:#ec4899,stroke:#db2777,color:#fff"]

/-- `generateArchitectureDiagram`. -/
def generateArchitectureDiagram (fresh : Fresh)
    (components : List ArchitectureComponent) : MermaidDiagram :=
  if components = [] then
    { type := .flowchart, title := "System Architecture",
      code := "flowchart TD\n    empty[No architecture data available]" }
  else
    let pass := archNodePass fresh components
    let idMap := archIdMap fresh components
    let conns := (allConns idMap components []).1
    let lines :=
      ["flowchart TD"] ++ pass.1 ++ conns ++ archStyleLines ++ classLines pass.2
    { type := .flowchart, title := "System Architecture",
      code := String.intercalate "\n" lines }

end Mermaid

namespace Mermaid

/-- Accumulator of the single node pass of `generateDataFlowDiagram`:
node lines, `idMap`, and `typeGroups` are all built in one loop. -/
structure DFAcc where
  lines : List String
  idMap : List (String × String)
  groups : List (String × List String)

/-- The node pass of `generateDataFlowDiagram` (one `sanitizeId` call per
node, at the node's position in the list). -/
def dfNodePass (fresh : Fresh) (nodes : List DataFlowNode) : DFAcc :=
  nodes.enum.foldl
    (fun acc p =>
      let safeId := sanitizeIdAt fresh p.1 p.2.id
      let shape := dataFlowShape p.2.type
      let label := sanitizeLabel p.2.name
      { lines := acc.lines ++
          ["    " ++ safeId ++ shape.openB ++ "\"" ++ label ++ "\"" ++ shape.closeB]
        idMap := strMapSet acc.idMap p.2.id safeId
        groups := groupAdd acc.groups p.2.type safeId })
    ⟨[], [], []⟩

/-- Edge lines of `generateDataFlowDiagram`; an edge whose endpoints are not
in the id map is skipped, a truthy label is sanitised and quoted. -/
def dfEdgeLines (idMap : List (String × String)) (edges : List DataFlowEdge) :
    List String :=
  edges.foldl
    (fun acc e =>
      match strMapGet idMap e.from_, strMapGet idMap e.to_ with
      | some fromId, some toId =>
        match e.label with
        | some l =>
          if l ≠ "" then
            acc ++ ["    " ++ fromId ++ " -->|\"" ++ sanitizeLabel l ++ "\"| " ++ toId]
          else acc ++ ["    " ++ fromId ++ " --> " ++ toId]
        | none => acc ++ ["    " ++ fromId ++ " --> " ++ toId]
      | _, _ => acc)
    []

/-- The fixed `classDef` style lines of `generateDataFlowDiagram`. -/
def dfStyleLines : List String :=
  ["",
   "    classDef source fill:#22c55e,stroke:#16a34a,color:#fff",
   "    classDef process fill:#3b82f6,stroke:#2563eb,color:#fff",
   "    classDef store fill:#8b5cf6,stroke:#7c3aed,color:#fff",
   "    classDef output fill:#f97316,stroke:#ea580c,color:#fff"]

/-- `generateDataFlowDiagram`. -/
def generateDataFlowDiagram (fresh : Fresh) (nodes : List DataFlowNode)
    (edges : List DataFlowEdge) : MermaidDiagram :=
  if nodes = [] then
    { type := .flowchart, title := "Data Flow",
      code := "flowchart LR\n    empty[No data flow available]" }
  else
    let acc := dfNodePass fresh nodes
    let lines :=
      ["flowchart LR"] ++ acc.lines ++ dfEdgeLines acc.idMap edges ++
      dfStyleLines ++ classLines acc.groups
    { type := .flowchart, title := "Data Flow",
      code := String.intercalate "\n" lines }

/-- `edge.label || edge.dataType || "data"`: the first truthy choice. -/
def firstTruthy (a b : Option String) (dflt : String) : String :=
  match a with
  | some s => if s ≠ "" then s else match b with
    | some t => if t ≠ "" then t else dflt
    | none => dflt
  | none => match b with
    | some t => if t ≠ "" then t else dflt
    | none => dflt

/-- Participant pass of `generateSequenceDiagram`. -/
def seqNodePass (fresh : Fresh) (nodes : List DataFlowNode) :
    List String × List (String × String) :=
  nodes.enum.foldl
    (fun acc p =>
      let safeId := sanitizeIdAt fresh p.1 p.2.id
      (acc.1 ++ ["    participant " ++ safeId ++ " as " ++ sanitizeLabel p.2.name],
       strMapSet acc.2 p.2.id safeId))
    ([], [])

/-- Interaction lines of `generateSequenceDiagram`. -/
def seqEdgeLines (idMap : List (String × String)) (edges : List DataFlowEdge) :
    List String :=
  edges.foldl
    (fun acc e =>
      match strMapGet idMap e.from_, strMapGet idMap e.to_ with
      | some fromId, some toId =>
        acc ++ ["    " ++ fromId ++ "->>+" ++ toId ++ ": " ++
                sanitizeLabel (firstTruthy e.label e.dataType "data")]
      | _, _ => acc)
    []

/-- `generateSequenceDiagram`. -/
def generateSequenceDiagram (fresh : Fresh) (nodes : List DataFlowNode)
    (edges : List DataFlowEdge) : MermaidDiagram :=
  if nodes = [] ∨ edges = [] then
    { type := .sequenceDiagram, title := "Sequence Diagram",
      code := "sequenceDiagram\n    Note over System: No sequence data available" }
  else
    let pass := seqNodePass fresh nodes
    let lines :=
      ["sequenceDiagram"] ++ pass.1 ++ [""] ++ seqEdgeLines pass.2 edges
    { type := .sequenceDiagram, title := "Sequence Diagram",
      code := String.intercalate "\n" lines }

/-- The `dataFlow` argument of `processDiagrams`. -/
structure DataFlowInput where
  nodes : List DataFlowNode
  edges : List DataFlowEdge
  deriving Repr, DecidableEq

/-- `processDiagrams` from the stricter codec (`part_006`): per slot, use the
generative backend's diagram verbatim when it validates, otherwise synthesize
from structured data when that is non-empty, otherwise leave the slot unset. -/
def processDiagrams (fresh : Fresh) (aiDiagrams : Option DiagramsData)
    (architecture : Option (List ArchitectureComponent))
    (dataFlow : Option DataFlowInput) : DiagramsData :=
  let aiArch := aiDiagrams.bind (·.architecture)
  let aiDf := aiDiagrams.bind (·.dataFlow)
  let aiComp := aiDiagrams.bind (·.components)
  let archSlot :=
    match aiArch with
    | some a =>
      if validateMermaidSyntax a.code then some a
      else match architecture with
        | some comps => if comps.length > 0
            then some (generateArchitectureDiagram fresh comps) else none
        | none => none
    | none =>
      match architecture with
      | some comps => if comps.length > 0
          then some (generateArchitectureDiagram fresh comps) else none
      | none => none
  let dfSlot :=
    match aiDf with
    | some a =>
      if validateMermaidSyntax a.code then some a
      else match dataFlow with
        | some df => if df.nodes.length > 0
            then some (generateDataFlowDiagram fresh df.nodes df.edges) else none
        | none => none
    | none =>
      match dataFlow with
      | some df => if df.nodes.length > 0
          then some (generateDataFlowDiagram fresh df.nodes df.edges) else none
      | none => none
  let compSlot :=
    match aiComp with
    | some a =>
      if validateMermaidSyntax a.code then some a
      else match dataFlow with
        | some df => if df.nodes.length > 0 ∧ df.edges.length > 0
            then some (generateSequenceDiagram fresh df.nodes df.edges) else none
        | none => none
    | none =>
      match dataFlow with
      | some df => if df.nodes.length > 0 ∧ df.edges.length > 0
          then some (generateSequenceDiagram fresh df.nodes df.edges) else none
      | none => none
  { architecture := archSlot, dataFlow := dfSlot, components := compSlot }

end Mermaid

namespace AnalyzeRoute

/-- `MAX_BODY_SIZE = 10 * 1024` from the analyze route. -/
def MAX_BODY_SIZE : Nat := 10 * 1024

/-- The outward outcome of the admission prefix of `POST`: the 503
configuration gate, the 429 rate-limit rejection, the 413 oversize-body
rejection, the 400 JSON rejection, or continuation with the parsed body. -/
inductive AdmissionOutcome (α : Type)
  | misconfigured
  | rateLimited
  | bodyTooLarge
  | invalidJson
  | proceed (body : α)
  deriving Repr, DecidableEq

/-- What the handler reads from the request during admission: the client
identifier (from `getClientIP`), the parsed `content-length` header
(`none` for a missing or non-numeric header), and the body text. -/
structure RequestInfo where
  clientIP : String
  contentLength : Option Int
  rawBody : String

/-- The admission prefix of `POST` in the analyze route, up to and including
`JSON.parse(rawBody)`: configuration gate, rate limit, the two body-size
checks, then the parse.  `JSON.parse` is abstracted by `parse` and the
server's only mutable state is the rate-limit map.  Body length counts
UTF-16 units in the source and characters here. -/
def postAdmission {α : Type} (parse : String → Option α) (configured : Bool)
    (cfg : RateLimit.Config) (now : Int) (req : RequestInfo)
    (st : RateLimit.RLState) : AdmissionOutcome α × RateLimit.RLState :=
  if configured = false then (.misconfigured, st)
  else
    let step := RateLimit.checkRateLimit cfg now req.clientIP st
    if step.1.allowed = false then (.rateLimited, step.2)
    else
      let oversizeHeader : Bool :=
        match req.contentLength with
        | some n => decide (n > (MAX_BODY_SIZE : Int))
        | none => false
      if oversizeHeader then (.bodyTooLarge, step.2)
      else if req.rawBody.length > MAX_BODY_SIZE then (.bodyTooLarge, step.2)
      else
        match parse req.rawBody with
        | none => (.invalidJson, step.2)
        | some b => (.proceed b, step.2)

end AnalyzeRoute

namespace UseAnalysis

/-- Modelled from the spec: `RepoMetadata` lives in `lib/types.ts`, which is
not among the sources; per §3 it carries identity (owner, name, full name)
and ancillary display data, immutable once fetched.  Only `fullName` is read
by the consumer logic under verification. -/
structure RepoMetadata where
  owner : String
  name : String
  fullName : String
  description : Option String
  language : Option String
  stars : Nat
  forks : Nat
  defaultBranch : String
  deriving Repr, DecidableEq

/-- Modelled from the spec: a `FileNode` of the fetched tree (path, type,
recursive children), from `lib/types.ts` which is absent from the sources. -/
inductive FileNode
  | file (path : String) (size : Nat)
  | dir (path : String) (children : List FileNode)

/-- The `fileStats` field of the metadata frame. -/
structure FileStats where
  totalFiles : Nat
  totalDirectories : Nat
  languages : List (String × Nat)
  deriving Repr, DecidableEq

/-- The `dataFlow` field of an analysis result. -/
structure DataFlowData where
  nodes : List Mermaid.DataFlowNode
  edges : List Mermaid.DataFlowEdge
  deriving Repr, DecidableEq

/-- The fields of `Partial<AnalysisResult>` that the `done`-frame handler of
`use-analysis.ts` reads or writes; `none` is `undefined`. -/
structure PartialResult where
  metadata : Option RepoMetadata := none
  fileTree : Option (List FileNode) := none
  fileStats : Option FileStats := none
  branch : Option String := none
  availableBranches : Option (List String) := none
  summary : Option String := none
  insights : Option (List String) := none
  scores : Option CodeAnalyzer.Scores := none
  refactors : Option (List String) := none
  automations : Option (List String) := none
  architecture : Option (List Mermaid.ArchitectureComponent) := none
  dataFlow : Option DataFlowData := none
  techStack : Option (List String) := none
  whatItDoes : Option String := none
  targetAudience : Option String := none
  howToRun : Option (List String) := none
  keyFolders : Option (List (String × String)) := none
  diagrams : Option Mermaid.DiagramsData := none

/-- The JSON object the consumer tries to parse out of the accumulated
generative text; every field may be absent. -/
structure AnalysisData where
  summary : Option String := none
  insights : Option (List String) := none
  scores : Option CodeAnalyzer.Scores := none
  refactors : Option (List String) := none
  automations : Option (List String) := none
  architecture : Option (List Mermaid.ArchitectureComponent) := none
  dataFlow : Option DataFlowData := none
  techStack : Option (List String) := none
  whatItDoes : Option String := none
  targetAudience : Option String := none
  howToRun : Option (List String) := none
  keyFolders : Option (List (String × String)) := none
  diagrams : Option Mermaid.DiagramsData := none

/-- Modelled from the spec: the client result cache (`analysisStorage` in
`lib/storage.ts`, absent from the sources) is a keyed store
`(repositoryFullName, branch?) → AnalysisResult`; only `set` under that key
is exercised here. -/
abbrev Cache := List ((String × Option String) × PartialResult)

/-- Modelled from the spec: `analysisStorage.set`, overwriting the entry for
the `(repositoryFullName, branch)` key. -/
def cacheSet (c : Cache) (k : String × Option String) (v : PartialResult) : Cache :=
  if c.any (fun p => p.1 = k) then
    c.map (fun p => if p.1 = k then (k, v) else p)
  else c ++ [(k, v)]

/-- Modelled from the spec: `analysisStorage.get` on the same key space. -/
def cacheGet (c : Cache) (k : String × Option String) : Option PartialResult :=
  (c.find? (fun p => p.1 = k)).map Prod.snd

/-- `aiContent.match(/\x7b[\s\S]*\x7d/)`: the greedy match runs from the
first opening brace to the last closing brace, and exists exactly when a
closing brace strictly follows the first opening brace. -/
def braceExtract (s : String) : Option String :=
  let cs := s.data
  match cs.findIdx? (· = '\x7b') with
  | none => none
  | some i =>
    match (cs.reverse.findIdx? (· = '\x7d')) with
    | none => none
    | some rj =>
      let j := cs.length - 1 - rj
      if i < j then some (String.mk ((cs.drop i).take (j - i + 1))) else none

/-- The `finalResult` merge of the success path: deterministic fields from
`currentResult`, narrative fields from the parsed object with the `|| …`
defaults of the source. -/
def mergeFinal (cur : PartialResult) (d : AnalysisData) : PartialResult :=
  { cur with
    summary := some ((d.summary.getD ""))
    insights := some (d.insights.getD [])
    scores := d.scores
    refactors := some (d.refactors.getD [])
    automations := some (d.automations.getD [])
    architecture := some (d.architecture.getD [])
    dataFlow := some (d.dataFlow.getD ⟨[], []⟩)
    techStack := some (d.techStack.getD [])
    whatItDoes := some (d.whatItDoes.getD "")
    targetAudience := some (d.targetAudience.getD "")
    howToRun := some (d.howToRun.getD [])
    keyFolders := some (d.keyFolders.getD [])
    diagrams := d.diagrams }

/-- The `fallbackResult` of the catch branch. -/
def fallbackResult (cur : PartialResult) : PartialResult :=
  { cur with
    summary := some "Analysis completed with parsing issues."
    insights := some []
    refactors := some []
    automations := some []
    architecture := some []
    dataFlow := some ⟨[], []⟩ }

/-- `currentResult.metadata?.fullName` truthiness: cache only when metadata
exists and its full name is non-empty. -/
def cacheWhenNamed (cur : PartialResult) (v : PartialResult) (cache : Cache) : Cache :=
  match cur.metadata with
  | some md => if md.fullName ≠ "" then cacheSet cache (md.fullName, cur.branch) v else cache
  | none => cache

/-- The `done`-frame handling of `use-analysis.ts`: extract a brace-delimited
candidate from the accumulated text; on parse success merge and cache, on
parse failure build the fallback and cache it, and when no candidate exists
do nothing.  `JSON.parse` is abstracted by `parse`. -/
def handleDone (parse : String → Option AnalysisData) (aiContent : String)
    (cur : PartialResult) (cache : Cache) : PartialResult × Cache :=
  match braceExtract aiContent with
  | none => (cur, cache)
  | some cand =>
    match parse cand with
    | some d =>
      let final := mergeFinal cur d
      (final, cacheWhenNamed cur final cache)
    | none =>
      let fb := fallbackResult cur
      (fb, cacheWhenNamed cur fb cache)

end UseAnalysis

namespace RateLimit

theorem mapGet_mapSet_self (m : RLState) (ip : String) (r : RateLimitRecord) :
    mapGet (mapSet m ip r) ip = some r := by
  unfold mapGet mapSet
  by_cases h : m.any (fun p => p.1 = ip)
  · rw [if_pos h, List.find?_map]
    have hfun : ((fun q : String × RateLimitRecord => decide (q.1 = ip)) ∘
        (fun p : String × RateLimitRecord => if p.1 = ip then (ip, r) else p))
        = (fun p : String × RateLimitRecord => decide (p.1 = ip)) := by
      funext p
      by_cases hp : p.1 = ip <;> simp [hp]
    rw [hfun]
    rcases List.any_eq_true.mp h with ⟨q, hq, hqe⟩
    have hsome : (m.find? (fun p => decide (p.1 = ip))).isSome := by
      rw [List.find?_isSome]
      exact ⟨q, hq, hqe⟩
    rcases Option.isSome_iff_exists.mp hsome with ⟨w, hw⟩
    have hw1 : w.1 = ip := by simpa using List.find?_some hw
    rw [hw]
    simp [hw1]
  · rw [if_neg h, List.find?_append]
    have hnone : m.find? (fun p => decide (p.1 = ip)) = none := by
      rw [List.find?_eq_none]
      intro x hx
      simpa using List.any_eq_false.mp (Bool.of_not_eq_true h) x hx
    simp [hnone, List.find?]

theorem mem_mapSet (m : RLState) (ip : String) (r : RateLimitRecord)
    (q : String × RateLimitRecord) (hq : q ∈ mapSet m ip r) :
    q = (ip, r) ∨ q ∈ m := by
  unfold mapSet at hq
  by_cases h : m.any (fun p => p.1 = ip)
  · rw [if_pos h] at hq
    rcases List.mem_map.mp hq with ⟨p, hp, hfp⟩
    by_cases hpe : p.1 = ip
    · left; rw [← hfp]; simp [hpe]
    · right; rw [← hfp]; simpa [hpe] using hp
  · rw [if_neg h] at hq
    rcases List.mem_append.mp hq with hq | hq
    · right; exact hq
    · left; simpa using hq

end RateLimit
namespace RateLimit

theorem checkRateLimit_fresh (cfg : Config) (now : Int) (ip : String)
    (m : RLState) (h : mapGet m ip = none) :
    checkRateLimit cfg now ip m =
      ({ allowed := true, remaining := (cfg.maxRequests : Int) - 1 },
       mapSet m ip ⟨1, now + cfg.windowMs⟩) := by
  unfold checkRateLimit
  rw [h]

theorem checkRateLimit_expired (cfg : Config) (now : Int) (ip : String)
    (m : RLState) (c : Nat) (r : Int) (h : mapGet m ip = some ⟨c, r⟩)
    (hlate : now > r) :
    checkRateLimit cfg now ip m =
      ({ allowed := true, remaining := (cfg.maxRequests : Int) - 1 },
       mapSet m ip ⟨1, now + cfg.windowMs⟩) := by
  unfold checkRateLimit
  rw [h]
  simp only [if_pos hlate]

theorem checkRateLimit_under (cfg : Config) (now : Int) (ip : String)
    (m : RLState) (c : Nat) (r : Int) (h : mapGet m ip = some ⟨c, r⟩)
    (hwin : ¬ now > r) (hc : c < cfg.maxRequests) :
    checkRateLimit cfg now ip m =
      ({ allowed := true, remaining := (cfg.maxRequests : Int) - (c + 1) },
       mapSet m ip ⟨c + 1, r⟩) := by
  unfold checkRateLimit
  rw [h]
  simp only [if_neg hwin, if_neg (by omega : ¬ c ≥ cfg.maxRequests)]

theorem checkRateLimit_atMax (cfg : Config) (now : Int) (ip : String)
    (m : RLState) (c : Nat) (r : Int) (h : mapGet m ip = some ⟨c, r⟩)
    (hwin : ¬ now > r) (hc : c ≥ cfg.maxRequests) :
    checkRateLimit cfg now ip m = ({ allowed := false, remaining := 0 }, m) := by
  unfold checkRateLimit
  rw [h]
  simp only [if_neg hwin, if_pos hc]

/-- Under the window cap, a run of calls is all-allowed and advances the
stored count by the number of calls, keeping the reset time. -/
theorem runCalls_within (cfg : Config) (ip : String) (ts : List Int)
    (m : RLState) (c : Nat) (r : Int)
    (hget : mapGet m ip = some ⟨c, r⟩)
    (hts : ∀ t ∈ ts, t ≤ r)
    (hcap : c + ts.length ≤ cfg.maxRequests) :
    (runCalls cfg ip ts m).1 = List.replicate ts.length true ∧
    mapGet (runCalls cfg ip ts m).2 ip = some ⟨c + ts.length, r⟩ := by
  induction ts generalizing m c with
  | nil => simpa [runCalls] using hget
  | cons t ts ih =>
    have hwin : ¬ t > r := by
      have := hts t (by simp)
      omega
    have hc : c < cfg.maxRequests := by
      have := hcap
      simp [List.length_cons] at this
      omega
    have hstep := checkRateLimit_under cfg t ip m c r hget hwin hc
    have hget' : mapGet (mapSet m ip ⟨c + 1, r⟩) ip = some ⟨c + 1, r⟩ :=
      mapGet_mapSet_self m ip _
    have hts' : ∀ u ∈ ts, u ≤ r := fun u hu => hts u (by simp [hu])
    have hcap' : c + 1 + ts.length ≤ cfg.maxRequests := by
      simp [List.length_cons] at hcap
      omega
    have hrec := ih (mapSet m ip ⟨c + 1, r⟩) (c + 1) hget' hts' hcap'
    constructor
    · simp only [runCalls, hstep, List.replicate_succ]
      simp [hrec.1, List.replicate_succ]
    · simp only [runCalls, hstep]
      have : c + 1 + ts.length = c + (ts.length + 1) := by omega
      simpa [this] using hrec.2

end RateLimit
namespace RateLimit

/-- Step soundness of `checkRateLimit` for the map invariant: one call
preserves well-formedness, bounds the returned `remaining`, and on success
leaves `remaining = maxRequests - storedCount`. -/
theorem checkRateLimit_step (cfg : Config) (hN : 1 ≤ cfg.maxRequests)
    (now : Int) (ip : String) (m : RLState) (hwf : WF cfg m) :
    WF cfg (checkRateLimit cfg now ip m).2 ∧
    0 ≤ (checkRateLimit cfg now ip m).1.remaining ∧
    (checkRateLimit cfg now ip m).1.remaining ≤ (cfg.maxRequests : Int) - 1 ∧
    ((checkRateLimit cfg now ip m).1.allowed = true →
      ∃ rec, mapGet (checkRateLimit cfg now ip m).2 ip = some rec ∧
        (checkRateLimit cfg now ip m).1.remaining =
          (cfg.maxRequests : Int) - rec.count) := by
  have hwfset : ∀ (c : Nat) (r : Int), 1 ≤ c → c ≤ cfg.maxRequests →
      WF cfg (mapSet m ip ⟨c, r⟩) := by
    intro c r h1 h2 q hq
    rcases mem_mapSet m ip ⟨c, r⟩ q hq with hq | hq
    · rw [hq]; exact ⟨h1, h2⟩
    · exact hwf q hq
  rcases hm : mapGet m ip with _ | ⟨c, r⟩
  · rw [checkRateLimit_fresh cfg now ip m hm]
    refine ⟨hwfset 1 (now + cfg.windowMs) le_rfl hN, by dsimp only; omega,
      by dsimp only; omega, ?_⟩
    intro _
    exact ⟨⟨1, now + cfg.windowMs⟩, mapGet_mapSet_self m ip _,
      by dsimp only; push_cast; ring⟩
  · by_cases hlate : now > r
    · rw [checkRateLimit_expired cfg now ip m c r hm hlate]
      refine ⟨hwfset 1 (now + cfg.windowMs) le_rfl hN, by dsimp only; omega,
        by dsimp only; omega, ?_⟩
      intro _
      exact ⟨⟨1, now + cfg.windowMs⟩, mapGet_mapSet_self m ip _,
        by dsimp only; push_cast; ring⟩
    · by_cases hc : c ≥ cfg.maxRequests
      · rw [checkRateLimit_atMax cfg now ip m c r hm hlate hc]
        exact ⟨hwf, by dsimp only; omega, by dsimp only; omega, by simp⟩
      · rw [checkRateLimit_under cfg now ip m c r hm hlate (by omega)]
        refine ⟨hwfset (c + 1) r (by omega) (by omega),
          by dsimp only; omega, by dsimp only; omega, ?_⟩
        intro _
        exact ⟨⟨c + 1, r⟩, mapGet_mapSet_self m ip _,
          by dsimp only; push_cast; ring⟩

/-- The cleanup sweep only removes records, so it preserves the invariant. -/
theorem cleanup_wf (cfg : Config) (now : Int) (m : RLState) (hwf : WF cfg m) :
    WF cfg (cleanupExpiredRecords now m) := by
  intro q hq
  exact hwf q (List.mem_of_mem_filter hq)

/-- Any operation run from a well-formed map keeps it well-formed, and every
result it collects respects the `remaining` bounds. -/
theorem runOps_wf (cfg : Config) (hN : 1 ≤ cfg.maxRequests) (ops : List RLOp)
    (m : RLState) (hwf : WF cfg m) :
    WF cfg (runOps cfg ops m).2 ∧
    ∀ res ∈ (runOps cfg ops m).1,
      0 ≤ res.remaining ∧ res.remaining ≤ (cfg.maxRequests : Int) - 1 := by
  induction ops generalizing m with
  | nil => exact ⟨hwf, by simp [runOps]⟩
  | cons op ops ih =>
    cases op with
    | check now ip =>
      have hstep := checkRateLimit_step cfg hN now ip m hwf
      have hrec := ih (checkRateLimit cfg now ip m).2 hstep.1
      refine ⟨by simpa [runOps] using hrec.1, ?_⟩
      intro res hres
      simp only [runOps, List.mem_cons] at hres
      rcases hres with rfl | hres
      · exact ⟨hstep.2.1, hstep.2.2.1⟩
      · exact hrec.2 res hres
    | sweep now =>
      have hrec := ih (cleanupExpiredRecords now m) (cleanup_wf cfg now m hwf)
      exact ⟨by simpa [runOps] using hrec.1, by simpa [runOps] using hrec.2⟩

end RateLimit
namespace RateLimit

theorem runCalls_append (cfg : Config) (ip : String) (as bs : List Int)
    (m : RLState) :
    runCalls cfg ip (as ++ bs) m =
      ((runCalls cfg ip as m).1 ++ (runCalls cfg ip bs (runCalls cfg ip as m).2).1,
       (runCalls cfg ip bs (runCalls cfg ip as m).2).2) := by
  induction as generalizing m with
  | nil => simp [runCalls]
  | cons a as ih => simp [runCalls, ih]

/-- The success-path tie between `remaining` and the stored count holds for
every state, not only well-formed ones. -/
theorem checkRateLimit_remaining (cfg : Config) (now : Int) (ip : String)
    (m : RLState)
    (hallow : (checkRateLimit cfg now ip m).1.allowed = true) :
    ∃ rec, mapGet (checkRateLimit cfg now ip m).2 ip = some rec ∧
      (checkRateLimit cfg now ip m).1.remaining =
        (cfg.maxRequests : Int) - rec.count := by
  rcases hm : mapGet m ip with _ | ⟨c, r⟩
  · rw [checkRateLimit_fresh cfg now ip m hm]
    exact ⟨⟨1, now + cfg.windowMs⟩, mapGet_mapSet_self m ip _,
      by dsimp only; push_cast; ring⟩
  · by_cases hlate : now > r
    · rw [checkRateLimit_expired cfg now ip m c r hm hlate]
      exact ⟨⟨1, now + cfg.windowMs⟩, mapGet_mapSet_self m ip _,
        by dsimp only; push_cast; ring⟩
    · by_cases hc : c ≥ cfg.maxRequests
      · rw [checkRateLimit_atMax cfg now ip m c r hm hlate hc] at hallow ⊢
        simp at hallow
      · rw [checkRateLimit_under cfg now ip m c r hm hlate (by omega)]
        exact ⟨⟨c + 1, r⟩, mapGet_mapSet_self m ip _,
          by dsimp only; push_cast; ring⟩

end RateLimit

/-- C2: with window duration `windowMs` and max-request count `maxRequests ≥ 1`,
a fresh client that issues `maxRequests + 1` calls whose timestamps stay at or
before the reset time established by the first call is allowed on calls
`1 … maxRequests` and rejected on call `maxRequests + 1`; a further call past
the reset time is allowed again and the stored count is reset to 1. -/
theorem claim_C2_fixed_window (cfg : RateLimit.Config) (ip : String)
    (m : RateLimit.RLState) (t0 : Int) (mid : List Int) (tl t' : Int)
    (hN : 1 ≤ cfg.maxRequests)
    (hfresh : RateLimit.mapGet m ip = none)
    (hmid : ∀ t ∈ mid, t ≤ t0 + cfg.windowMs)
    (htl : tl ≤ t0 + cfg.windowMs)
    (hlen : mid.length = cfg.maxRequests - 1)
    (ht' : t' > t0 + cfg.windowMs) :
    (RateLimit.runCalls cfg ip (t0 :: mid ++ [tl]) m).1 =
      List.replicate cfg.maxRequests true ++ [false] ∧
    (RateLimit.checkRateLimit cfg t' ip
      (RateLimit.runCalls cfg ip (t0 :: mid ++ [tl]) m).2).1.allowed = true ∧
    RateLimit.mapGet (RateLimit.checkRateLimit cfg t' ip
      (RateLimit.runCalls cfg ip (t0 :: mid ++ [tl]) m).2).2 ip =
      some ⟨1, t' + cfg.windowMs⟩ := by
  classical
  have hstep0 := RateLimit.checkRateLimit_fresh cfg t0 ip m hfresh
  set m1 := RateLimit.mapSet m ip ⟨1, t0 + cfg.windowMs⟩ with hm1
  have hget1 : RateLimit.mapGet m1 ip = some ⟨1, t0 + cfg.windowMs⟩ :=
    RateLimit.mapGet_mapSet_self m ip _
  have hmidrun := RateLimit.runCalls_within cfg ip mid m1 1 (t0 + cfg.windowMs)
    hget1 hmid (by omega)
  set m2 := (RateLimit.runCalls cfg ip mid m1).2 with hm2
  have hget2 : RateLimit.mapGet m2 ip =
      some ⟨1 + mid.length, t0 + cfg.windowMs⟩ := hmidrun.2
  have hcount : 1 + mid.length = cfg.maxRequests := by omega
  have hlast := RateLimit.checkRateLimit_atMax cfg tl ip m2 (1 + mid.length)
    (t0 + cfg.windowMs) hget2 (by omega) (by omega)
  have hrun : RateLimit.runCalls cfg ip (t0 :: mid ++ [tl]) m =
      (true :: ((RateLimit.runCalls cfg ip mid m1).1 ++ [false]), m2) := by
    show RateLimit.runCalls cfg ip (t0 :: (mid ++ [tl])) m = _
    simp only [RateLimit.runCalls, hstep0]
    rw [RateLimit.runCalls_append]
    simp only [← hm1, ← hm2, RateLimit.runCalls, hlast]
  constructor
  · rw [hrun]
    simp only [hmidrun.1, hlen]
    have : cfg.maxRequests = (cfg.maxRequests - 1) + 1 := by omega
    rw [this, List.replicate_succ]
    simp
  · have hfinal := RateLimit.checkRateLimit_expired cfg t' ip m2
      (1 + mid.length) (t0 + cfg.windowMs) hget2 ht'
    rw [hrun]
    dsimp only
    rw [hfinal]
    exact ⟨rfl, RateLimit.mapGet_mapSet_self m2 ip _⟩

/-- Witness for C2 at `windowMs = 60000`, `maxRequests = 3`, a fresh client,
calls at 0, 10, 20, 30 inside the window and one at 60001 after it. -/
theorem claim_C2_fixed_window_witness :
    (RateLimit.runCalls ⟨60000, 3⟩ "203.0.113.7" (0 :: [10, 20] ++ [30]) []).1 =
      List.replicate 3 true ++ [false] ∧
    (RateLimit.checkRateLimit ⟨60000, 3⟩ 60001 "203.0.113.7"
      (RateLimit.runCalls ⟨60000, 3⟩ "203.0.113.7" (0 :: [10, 20] ++ [30]) []).2).1.allowed
      = true ∧
    RateLimit.mapGet (RateLimit.checkRateLimit ⟨60000, 3⟩ 60001 "203.0.113.7"
      (RateLimit.runCalls ⟨60000, 3⟩ "203.0.113.7" (0 :: [10, 20] ++ [30]) []).2).2
      "203.0.113.7" = some ⟨1, 60001 + 60000⟩ :=
  claim_C2_fixed_window ⟨60000, 3⟩ "203.0.113.7" [] 0 [10, 20] 30 60001
    (by decide) rfl (by decide) (by decide) (by decide) (by decide)

/-- C3: a call rejected inside the current window (stored count at or above
the max) returns `allowed = false` and leaves the shared map unchanged —
neither the count nor the reset time moves. -/
theorem claim_C3_reject_leaves_state (cfg : RateLimit.Config) (ip : String)
    (m : RateLimit.RLState) (c : Nat) (r t : Int)
    (hget : RateLimit.mapGet m ip = some ⟨c, r⟩)
    (hwin : ¬ t > r)
    (hmax : c ≥ cfg.maxRequests) :
    (RateLimit.checkRateLimit cfg t ip m).1.allowed = false ∧
    (RateLimit.checkRateLimit cfg t ip m).2 = m := by
  rw [RateLimit.checkRateLimit_atMax cfg t ip m c r hget hwin hmax]
  exact ⟨rfl, rfl⟩

/-- Witness for C3: a client at the limit (count 3 of max 3) inside the
window is rejected and the map is untouched. -/
theorem claim_C3_reject_leaves_state_witness :
    (RateLimit.checkRateLimit ⟨60000, 3⟩ 500 "198.51.100.9"
      [("198.51.100.9", ⟨3, 1000⟩)]).1.allowed = false ∧
    (RateLimit.checkRateLimit ⟨60000, 3⟩ 500 "198.51.100.9"
      [("198.51.100.9", ⟨3, 1000⟩)]).2 = [("198.51.100.9", ⟨3, 1000⟩)] :=
  claim_C3_reject_leaves_state ⟨60000, 3⟩ "198.51.100.9"
    [("198.51.100.9", ⟨3, 1000⟩)] 3 1000 500 rfl (by decide) (by decide)

/-- C10: after any finite sequence of `checkRateLimit` and
`cleanupExpiredRecords` operations from the empty map, every stored record
has `1 ≤ count ≤ maxRequests`; every returned result has
`0 ≤ remaining ≤ maxRequests - 1`; and whenever a call is allowed its
`remaining` equals `maxRequests` minus the count it stored. -/
theorem claim_C10_map_invariant (cfg : RateLimit.Config)
    (hN : 1 ≤ cfg.maxRequests) (ops : List RateLimit.RLOp) :
    RateLimit.WF cfg (RateLimit.runOps cfg ops []).2 ∧
    (∀ res ∈ (RateLimit.runOps cfg ops []).1,
      0 ≤ res.remaining ∧ res.remaining ≤ (cfg.maxRequests : Int) - 1) ∧
    (∀ (m : RateLimit.RLState) (now : Int) (ip : String),
      (RateLimit.checkRateLimit cfg now ip m).1.allowed = true →
      ∃ rec, RateLimit.mapGet (RateLimit.checkRateLimit cfg now ip m).2 ip =
          some rec ∧
        (RateLimit.checkRateLimit cfg now ip m).1.remaining =
          (cfg.maxRequests : Int) - rec.count) := by
  have hempty : RateLimit.WF cfg [] := by intro p hp; simp at hp
  have hrun := RateLimit.runOps_wf cfg hN ops [] hempty
  exact ⟨hrun.1, hrun.2,
    fun m now ip hallow => RateLimit.checkRateLimit_remaining cfg now ip m hallow⟩

/-- Witness for C10 at `maxRequests = 2` over a mixed operation sequence. -/
theorem claim_C10_map_invariant_witness :
    RateLimit.WF ⟨60000, 2⟩ (RateLimit.runOps ⟨60000, 2⟩
      [.check 0 "a", .check 1 "a", .check 2 "a", .sweep 100000,
       .check 200000 "a"] []).2 ∧
    (∀ res ∈ (RateLimit.runOps ⟨60000, 2⟩
      [.check 0 "a", .check 1 "a", .check 2 "a", .sweep 100000,
       .check 200000 "a"] []).1,
      0 ≤ res.remaining ∧ res.remaining ≤ ((2 : Nat) : Int) - 1) ∧
    (∀ (m : RateLimit.RLState) (now : Int) (ip : String),
      (RateLimit.checkRateLimit ⟨60000, 2⟩ now ip m).1.allowed = true →
      ∃ rec, RateLimit.mapGet (RateLimit.checkRateLimit ⟨60000, 2⟩ now ip m).2 ip =
          some rec ∧
        (RateLimit.checkRateLimit ⟨60000, 2⟩ now ip m).1.remaining =
          ((2 : Nat) : Int) - rec.count) :=
  claim_C10_map_invariant ⟨60000, 2⟩ (by decide)
    [.check 0 "a", .check 1 "a", .check 2 "a", .sweep 100000, .check 200000 "a"]
namespace CodeAnalyzer

/-- The integer-twentieths rounding agrees with `Math.round` of the exact
rational weighted sum. -/
theorem roundTwentieths_eq_roundRat (a b c d e f : ℤ) :
    roundTwentieths (4 * a + 3 * b + 4 * c + 4 * d + 3 * e + 2 * f) =
      roundRat ((0.20 : ℚ) * a + 0.15 * b + 0.20 * c + 0.20 * d +
        0.15 * e + 0.10 * f) := by
  unfold roundRat roundTwentieths
  have h1 : (0.20 : ℚ) * a + 0.15 * b + 0.20 * c + 0.20 * d + 0.15 * e +
      0.10 * f + 1 / 2
      = ((4 * a + 3 * b + 4 * c + 4 * d + 3 * e + 2 * f + 10 : ℤ) : ℚ) /
        ((20 : ℕ) : ℚ) := by
    push_cast
    ring_nf
  rw [h1, Rat.floor_intCast_div_natCast]
  norm_num

theorem codeQuality_bounds (m : CodeMetrics) :
    0 ≤ (calculateScores m).codeQuality ∧ (calculateScores m).codeQuality ≤ 100 := by
  simp only [calculateScores]
  split_ifs <;> omega

theorem documentation_bounds (m : CodeMetrics) :
    0 ≤ (calculateScores m).documentation ∧
      (calculateScores m).documentation ≤ 100 := by
  simp only [calculateScores]
  rcases m.readmeQuality <;> simp only [rmScore] <;> split_ifs <;> omega

theorem security_bounds (m : CodeMetrics) :
    0 ≤ (calculateScores m).security ∧ (calculateScores m).security ≤ 100 := by
  simp only [calculateScores]
  split_ifs <;> omega

theorem maintainability_bounds (m : CodeMetrics) :
    0 ≤ (calculateScores m).maintainability ∧
      (calculateScores m).maintainability ≤ 100 := by
  simp only [calculateScores]
  split_ifs <;> omega

theorem testCoverage_bounds (m : CodeMetrics) :
    0 ≤ (calculateScores m).testCoverage ∧
      (calculateScores m).testCoverage ≤ 100 := by
  simp only [calculateScores]
  split_ifs <;> omega

theorem dependencies_bounds (m : CodeMetrics) :
    0 ≤ (calculateScores m).dependencies ∧
      (calculateScores m).dependencies ≤ 100 := by
  simp only [calculateScores]
  split_ifs <;> omega

theorem overall_eq (m : CodeMetrics) :
    (calculateScores m).overall = roundTwentieths
      (4 * (calculateScores m).codeQuality +
       3 * (calculateScores m).documentation +
       4 * (calculateScores m).security +
       4 * (calculateScores m).maintainability +
       3 * (calculateScores m).testCoverage +
       2 * (calculateScores m).dependencies) := rfl

end CodeAnalyzer

/-- C1: every `calculateScores` output consists of seven integer scores in
`[0, 100]`, and the overall score is exactly `Math.round` of the weighted sum
`0.20·codeQuality + 0.15·documentation + 0.20·security + 0.20·maintainability
+ 0.15·testCoverage + 0.10·dependencies` of the six returned category
scores. -/
theorem claim_C1_scores (m : CodeAnalyzer.CodeMetrics) :
    (0 ≤ (CodeAnalyzer.calculateScores m).overall ∧
      (CodeAnalyzer.calculateScores m).overall ≤ 100) ∧
    (0 ≤ (CodeAnalyzer.calculateScores m).codeQuality ∧
      (CodeAnalyzer.calculateScores m).codeQuality ≤ 100) ∧
    (0 ≤ (CodeAnalyzer.calculateScores m).documentation ∧
      (CodeAnalyzer.calculateScores m).documentation ≤ 100) ∧
    (0 ≤ (CodeAnalyzer.calculateScores m).security ∧
      (CodeAnalyzer.calculateScores m).security ≤ 100) ∧
    (0 ≤ (CodeAnalyzer.calculateScores m).maintainability ∧
      (CodeAnalyzer.calculateScores m).maintainability ≤ 100) ∧
    (0 ≤ (CodeAnalyzer.calculateScores m).testCoverage ∧
      (CodeAnalyzer.calculateScores m).testCoverage ≤ 100) ∧
    (0 ≤ (CodeAnalyzer.calculateScores m).dependencies ∧
      (CodeAnalyzer.calculateScores m).dependencies ≤ 100) ∧
    (CodeAnalyzer.calculateScores m).overall =
      CodeAnalyzer.roundRat
        ((0.20 : ℚ) * (CodeAnalyzer.calculateScores m).codeQuality +
         0.15 * (CodeAnalyzer.calculateScores m).documentation +
         0.20 * (CodeAnalyzer.calculateScores m).security +
         0.20 * (CodeAnalyzer.calculateScores m).maintainability +
         0.15 * (CodeAnalyzer.calculateScores m).testCoverage +
         0.10 * (CodeAnalyzer.calculateScores m).dependencies) := by
  have hcq := CodeAnalyzer.codeQuality_bounds m
  have hdoc := CodeAnalyzer.documentation_bounds m
  have hsec := CodeAnalyzer.security_bounds m
  have hmaint := CodeAnalyzer.maintainability_bounds m
  have htest := CodeAnalyzer.testCoverage_bounds m
  have hdep := CodeAnalyzer.dependencies_bounds m
  have hov := CodeAnalyzer.overall_eq m
  refine ⟨?_, hcq, hdoc, hsec, hmaint, htest, hdep, ?_⟩
  · rw [hov]
    unfold CodeAnalyzer.roundTwentieths
    omega
  · rw [hov, CodeAnalyzer.roundTwentieths_eq_roundRat]
namespace CodeAnalyzer

/-- A metric set matching C9's hypothesis (`hasTests = false`, `hasCI = false`,
`hasTypeScript = true`, `strictMode = false`) in which linting is detected. -/
def metricsC9 : CodeMetrics :=
  { hasTests := false, testFileCount := 0, hasCI := false, ciProvider := none,
    hasLinting := true, hasTypeScript := true, strictMode := false,
    hasPrettier := false, hasSecurityConfig := false, hasEnvExample := false,
    exposedSecrets := [], hasChangelog := false, hasContributing := false,
    hasLicense := true, readmeQuality := .good, dependencyCount := 3,
    devDependencyCount := 1, vulnerablePatterns := [], largeFiles := [],
    codePatterns := ⟨false, false, false⟩, missingEssentials := [],
    existingAutomations := [] }

end CodeAnalyzer

/-- C9 as stated is false: a metric set with `hasTests = false`,
`hasCI = false`, `hasTypeScript = true`, `strictMode = false` but with
linting detected scores 50 + 20 + 10 = 80 on code quality, not 70. -/
theorem claim_C9_counterexample :
    CodeAnalyzer.metricsC9.hasTests = false ∧
    CodeAnalyzer.metricsC9.hasCI = false ∧
    CodeAnalyzer.metricsC9.hasTypeScript = true ∧
    CodeAnalyzer.metricsC9.strictMode = false ∧
    (CodeAnalyzer.calculateScores CodeAnalyzer.metricsC9).codeQuality = 80 ∧
    (CodeAnalyzer.calculateScores CodeAnalyzer.metricsC9).codeQuality ≠ 70 := by
  refine ⟨rfl, rfl, rfl, rfl, rfl, ?_⟩
  decide

/-- C9 amended: the code-quality score is 50 + 20 = 70 for metric sets with
`hasTypeScript = true`, `strictMode = false` — provided the remaining
code-quality inputs (linting, prettier, error handling) are also absent.
`hasTests`/`hasCI` do not enter the code-quality category at all. -/
theorem claim_C9_amended (m : CodeAnalyzer.CodeMetrics)
    (_hTests : m.hasTests = false) (_hCI : m.hasCI = false)
    (hTS : m.hasTypeScript = true) (hStrict : m.strictMode = false)
    (hLint : m.hasLinting = false) (hPrettier : m.hasPrettier = false)
    (hErr : m.codePatterns.hasErrorHandling = false) :
    (CodeAnalyzer.calculateScores m).codeQuality = 70 := by
  simp only [CodeAnalyzer.calculateScores, hTS, hStrict, hLint, hPrettier, hErr]
  decide

/-- Witness for the amended C9 at a fully concrete metric set. -/
theorem claim_C9_amended_witness :
    ({ CodeAnalyzer.metricsC9 with hasLinting := false } :
        CodeAnalyzer.CodeMetrics).hasTests = false ∧
    (CodeAnalyzer.calculateScores
      { CodeAnalyzer.metricsC9 with hasLinting := false }).codeQuality = 70 :=
  ⟨rfl, claim_C9_amended { CodeAnalyzer.metricsC9 with hasLinting := false }
    rfl rfl rfl rfl rfl rfl rfl⟩
namespace Mermaid

/-- A safe identifier: at most 30 characters, starting with an ASCII letter,
drawn entirely from `[a-zA-Z0-9_-]`. -/
def goodId (s : String) : Prop :=
  s.length ≤ 30 ∧ (∃ c cs, s.data = c :: cs ∧ c.isAlpha = true) ∧
  ∀ c ∈ s.data, isIdChar c = true

theorem isIdChar_replace (c : Char) :
    isIdChar (if isIdChar c then c else '_') = true := by
  by_cases h : isIdChar c
  · simp [h]
  · simp only [if_neg h]
    decide

theorem map_eq_self_of_fixed (l : List Char) (f : Char → Char)
    (h : ∀ x ∈ l, f x = x) : l.map f = l := by
  induction l with
  | nil => rfl
  | cons a l ih => simp [h a (by simp), ih (fun x hx => h x (by simp [hx]))]

/-- For a non-empty input, the core pass yields a list of the same length,
headed by a letter, all of whose characters are identifier characters. -/
theorem sanitizeIdCore_spec (l : List Char) (h : l ≠ []) :
    ∃ c cs, sanitizeIdCore l = c :: cs ∧ c.isAlpha = true ∧
      (∀ x ∈ sanitizeIdCore l, isIdChar x = true) ∧
      (sanitizeIdCore l).length = l.length := by
  rcases l with _ | ⟨a, l⟩
  · exact absurd rfl h
  · unfold sanitizeIdCore
    simp only [List.map_cons]
    set fa := if isIdChar a then a else '_' with hfa
    have hmem : ∀ x ∈ fa :: l.map (fun c => if isIdChar c then c else '_'),
        isIdChar x = true := by
      intro x hx
      rcases List.mem_cons.mp hx with rfl | hx
      · exact isIdChar_replace a
      · rcases List.mem_map.mp hx with ⟨y, _, rfl⟩
        exact isIdChar_replace y
    by_cases hal : fa.isAlpha
    · refine ⟨fa, _, by rw [if_pos hal], hal, ?_, by rw [if_pos hal]; simp⟩
      rw [if_pos hal]
      exact hmem
    · refine ⟨'n', _, by rw [if_neg hal], by decide, ?_, by rw [if_neg hal]; simp⟩
      rw [if_neg hal]
      intro x hx
      rcases List.mem_cons.mp hx with rfl | hx
      · decide
      · exact hmem x (List.mem_cons_of_mem _ hx)

/-- The core pass fixes any list it could itself have produced. -/
theorem sanitizeIdCore_fixed (c : Char) (cs : List Char)
    (hal : c.isAlpha = true)
    (hall : ∀ x ∈ c :: cs, isIdChar x = true) :
    sanitizeIdCore (c :: cs) = c :: cs := by
  unfold sanitizeIdCore
  have hmap : (c :: cs).map (fun x => if isIdChar x then x else '_') = c :: cs :=
    map_eq_self_of_fixed _ _ (fun x hx => by rw [if_pos (hall x hx)])
  rw [hmap]
  simp [hal]

end Mermaid
/-- C4: what the code does at the failing inputs.  `validateMermaidSyntax`
lower-cases the input but compares it against the mixed-case keyword
spellings, so text beginning with `sequenceDiagram`, `classDiagram`,
`stateDiagram` or `erDiagram` is rejected even though those keywords are
in `validStarts`; the all-lowercase keywords and the empty string behave
as the claim states. -/
theorem claim_C4_mixed_case_rejected :
    Mermaid.validateMermaidSyntax "sequenceDiagram\n    A->>B: hello" = false ∧
    Mermaid.validateMermaidSyntax "classDiagram\n    class Animal" = false ∧
    Mermaid.validateMermaidSyntax "stateDiagram\n    s1 --> s2" = false ∧
    Mermaid.validateMermaidSyntax "erDiagram\n    CUSTOMER" = false ∧
    ("sequenceDiagram".data.isPrefixOf
      (Mermaid.trimChars "sequenceDiagram\n    A->>B: hello".data) = true) ∧
    Mermaid.validateMermaidSyntax "flowchart TD\n    a --> b" = true ∧
    Mermaid.validateMermaidSyntax "  GRAPH LR" = true ∧
    Mermaid.validateMermaidSyntax "" = false := by
  decide

/-- C5 as stated is false: for the (falsy) empty input `sanitizeId` builds its
result from `Date.now()` and `Math.random()`, so two environments yield
different outputs — the function is not deterministic on every input. -/
theorem claim_C5_counterexample :
    Mermaid.sanitizeId 0 "ab12" "" ≠ Mermaid.sanitizeId 1 "ab12" "" := by
  decide

/-- C5 amended: on every non-empty input, `sanitizeId` is deterministic
(independent of clock and RNG) and idempotent, and its result has at most 30
characters, starts with an ASCII letter, and uses only letters, digits,
underscore and hyphen.  (On the empty input the result still starts with a
letter and uses that alphabet, but depends on clock and RNG.) -/
theorem claim_C5_amended (now now' : Nat) (rand rand' : String) (id : String)
    (h : id ≠ "") :
    Mermaid.sanitizeId now rand id = Mermaid.sanitizeId now' rand' id ∧
    Mermaid.sanitizeId now' rand' (Mermaid.sanitizeId now rand id) =
      Mermaid.sanitizeId now rand id ∧
    Mermaid.goodId (Mermaid.sanitizeId now rand id) := by
  have hsize : ∀ (a : Nat) (b : String), Mermaid.sanitizeId a b id =
      String.mk ((Mermaid.sanitizeIdCore id.data).take 30) := by
    intro a b
    unfold Mermaid.sanitizeId
    rw [if_neg h]
  have hdata : id.data ≠ [] := fun hd => h (String.ext hd)
  obtain ⟨c, cs, hcore, hal, hall, _⟩ := Mermaid.sanitizeIdCore_spec id.data hdata
  set y := String.mk ((Mermaid.sanitizeIdCore id.data).take 30) with hy
  have hydata : y.data = (Mermaid.sanitizeIdCore id.data).take 30 := rfl
  have hytake : y.data = c :: cs.take 29 := by rw [hydata, hcore]; rfl
  have hylen : y.data.length ≤ 30 := by
    rw [hydata, List.length_take]
    omega
  have hymem : ∀ x ∈ y.data, Mermaid.isIdChar x = true := by
    intro x hx
    exact hall x (List.take_subset 30 _ (hydata ▸ hx))
  have hygood : Mermaid.goodId y := ⟨hylen, ⟨c, cs.take 29, hytake, hal⟩, hymem⟩
  refine ⟨by rw [hsize now rand, hsize now' rand'], ?_, by rw [hsize]; exact hygood⟩
  rw [hsize now rand]
  have hyne : y ≠ "" := by
    intro he
    have hnil : y.data = ([] : List Char) := by rw [he]
    rw [hytake] at hnil
    cases hnil
  show Mermaid.sanitizeId now' rand' y = y
  unfold Mermaid.sanitizeId
  rw [if_neg hyne]
  have hfix : Mermaid.sanitizeIdCore y.data = y.data := by
    rw [hytake]
    exact Mermaid.sanitizeIdCore_fixed c _ hal (hytake ▸ hymem)
  rw [hfix, List.take_of_length_le hylen]

/-- Witness for the amended C5 on the concrete input `"9a b!"`. -/
theorem claim_C5_amended_witness :
    ("9a b!" : String) ≠ "" ∧
    (Mermaid.sanitizeId 0 "ab12" "9a b!" = Mermaid.sanitizeId 7 "zz99" "9a b!" ∧
     Mermaid.sanitizeId 7 "zz99" (Mermaid.sanitizeId 0 "ab12" "9a b!") =
       Mermaid.sanitizeId 0 "ab12" "9a b!" ∧
     Mermaid.goodId (Mermaid.sanitizeId 0 "ab12" "9a b!")) :=
  ⟨by decide, claim_C5_amended 0 7 "ab12" "zz99" "9a b!" (by decide)⟩
namespace Mermaid

/-- The generative slot is unusable: absent, or present but failing
`validateMermaidSyntax`. -/
def aiSlotMissed (s : Option MermaidDiagram) : Prop :=
  s = none ∨ ∃ a, s = some a ∧ validateMermaidSyntax a.code = false

theorem processDiagrams_architecture (fresh : Fresh) (ai : Option DiagramsData)
    (arch : Option (List ArchitectureComponent)) (df : Option DataFlowInput) :
    (processDiagrams fresh ai arch df).architecture =
      match ai.bind (·.architecture) with
      | some a =>
        if validateMermaidSyntax a.code then some a
        else match arch with
          | some comps => if comps.length > 0
              then some (generateArchitectureDiagram fresh comps) else none
          | none => none
      | none =>
        match arch with
        | some comps => if comps.length > 0
            then some (generateArchitectureDiagram fresh comps) else none
        | none => none := rfl

theorem processDiagrams_dataFlow (fresh : Fresh) (ai : Option DiagramsData)
    (arch : Option (List ArchitectureComponent)) (df : Option DataFlowInput) :
    (processDiagrams fresh ai arch df).dataFlow =
      match ai.bind (·.dataFlow) with
      | some a =>
        if validateMermaidSyntax a.code then some a
        else match df with
          | some d => if d.nodes.length > 0
              then some (generateDataFlowDiagram fresh d.nodes d.edges) else none
          | none => none
      | none =>
        match df with
        | some d => if d.nodes.length > 0
            then some (generateDataFlowDiagram fresh d.nodes d.edges) else none
        | none => none := rfl

theorem processDiagrams_components (fresh : Fresh) (ai : Option DiagramsData)
    (arch : Option (List ArchitectureComponent)) (df : Option DataFlowInput) :
    (processDiagrams fresh ai arch df).components =
      match ai.bind (·.components) with
      | some a =>
        if validateMermaidSyntax a.code then some a
        else match df with
          | some d => if d.nodes.length > 0 ∧ d.edges.length > 0
              then some (generateSequenceDiagram fresh d.nodes d.edges) else none
          | none => none
      | none =>
        match df with
        | some d => if d.nodes.length > 0 ∧ d.edges.length > 0
            then some (generateSequenceDiagram fresh d.nodes d.edges) else none
        | none => none := rfl

end Mermaid
/-- C6 as stated is false: when neither a valid generative diagram nor any
structured data exists, `processDiagrams` emits no placeholder — all three
slots are simply absent, so the renderer receives no diagram at all. -/
theorem claim_C6_counterexample :
    (Mermaid.processDiagrams (fun _ => (0, "ab12")) none none none).architecture
      = none ∧
    (Mermaid.processDiagrams (fun _ => (0, "ab12")) none none none).dataFlow
      = none ∧
    (Mermaid.processDiagrams (fun _ => (0, "ab12")) none none none).components
      = none :=
  ⟨rfl, rfl, rfl⟩

/-- C6 amended: per slot, a generative diagram that passes
`validateMermaidSyntax` is used verbatim; otherwise non-empty structured data
is synthesized deterministically (given the id-fallback environment); and
with no structured data the slot is left unset — the single-node placeholder
diagrams live inside the generators, which `processDiagrams` only invokes on
non-empty data, so no placeholder is emitted. -/
theorem claim_C6_amended (fresh : Mermaid.Fresh) (ai : Option Mermaid.DiagramsData)
    (arch : Option (List Mermaid.ArchitectureComponent))
    (df : Option Mermaid.DataFlowInput) :
    (∀ a, ai.bind (·.architecture) = some a →
      Mermaid.validateMermaidSyntax a.code = true →
      (Mermaid.processDiagrams fresh ai arch df).architecture = some a) ∧
    (∀ comps, Mermaid.aiSlotMissed (ai.bind (·.architecture)) →
      arch = some comps → comps ≠ [] →
      (Mermaid.processDiagrams fresh ai arch df).architecture =
        some (Mermaid.generateArchitectureDiagram fresh comps)) ∧
    (Mermaid.aiSlotMissed (ai.bind (·.architecture)) →
      (arch = none ∨ arch = some []) →
      (Mermaid.processDiagrams fresh ai arch df).architecture = none) ∧
    (∀ a, ai.bind (·.dataFlow) = some a →
      Mermaid.validateMermaidSyntax a.code = true →
      (Mermaid.processDiagrams fresh ai arch df).dataFlow = some a) ∧
    (∀ d, Mermaid.aiSlotMissed (ai.bind (·.dataFlow)) →
      df = some d → d.nodes ≠ [] →
      (Mermaid.processDiagrams fresh ai arch df).dataFlow =
        some (Mermaid.generateDataFlowDiagram fresh d.nodes d.edges)) ∧
    (Mermaid.aiSlotMissed (ai.bind (·.dataFlow)) →
      (df = none ∨ ∃ d, df = some d ∧ d.nodes = []) →
      (Mermaid.processDiagrams fresh ai arch df).dataFlow = none) ∧
    (∀ a, ai.bind (·.components) = some a →
      Mermaid.validateMermaidSyntax a.code = true →
      (Mermaid.processDiagrams fresh ai arch df).components = some a) ∧
    (∀ d, Mermaid.aiSlotMissed (ai.bind (·.components)) →
      df = some d → d.nodes ≠ [] → d.edges ≠ [] →
      (Mermaid.processDiagrams fresh ai arch df).components =
        some (Mermaid.generateSequenceDiagram fresh d.nodes d.edges)) ∧
    (Mermaid.aiSlotMissed (ai.bind (·.components)) →
      (df = none ∨ ∃ d, df = some d ∧ (d.nodes = [] ∨ d.edges = [])) →
      (Mermaid.processDiagrams fresh ai arch df).components = none) := by
  refine ⟨?_, ?_, ?_, ?_, ?_, ?_, ?_, ?_, ?_⟩
  · intro a ha hv
    rw [Mermaid.processDiagrams_architecture, ha]
    simp [hv]
  · intro comps hmiss hA hne
    rw [Mermaid.processDiagrams_architecture]
    rcases hmiss with hm | ⟨b, hb, hbv⟩
    · rw [hm, hA]
      simp [List.length_pos.mpr hne]
    · rw [hb, hA]
      simp [hbv, List.length_pos.mpr hne]
  · intro hmiss hA
    rw [Mermaid.processDiagrams_architecture]
    rcases hmiss with hm | ⟨b, hb, hbv⟩
    · rw [hm]
      rcases hA with hA | hA <;> simp [hA]
    · rw [hb]
      rcases hA with hA | hA <;> simp [hbv, hA]
  · intro a ha hv
    rw [Mermaid.processDiagrams_dataFlow, ha]
    simp [hv]
  · intro d hmiss hD hne
    rw [Mermaid.processDiagrams_dataFlow]
    rcases hmiss with hm | ⟨b, hb, hbv⟩
    · rw [hm, hD]
      simp [List.length_pos.mpr hne]
    · rw [hb, hD]
      simp [hbv, List.length_pos.mpr hne]
  · intro hmiss hD
    rw [Mermaid.processDiagrams_dataFlow]
    rcases hmiss with hm | ⟨b, hb, hbv⟩
    · rw [hm]
      rcases hD with hD | ⟨d, hD, hdn⟩
      · simp [hD]
      · simp [hD, hdn]
    · rw [hb]
      rcases hD with hD | ⟨d, hD, hdn⟩
      · simp [hbv, hD]
      · simp [hbv, hD, hdn]
  · intro a ha hv
    rw [Mermaid.processDiagrams_components, ha]
    simp [hv]
  · intro d hmiss hD hn he
    rw [Mermaid.processDiagrams_components]
    rcases hmiss with hm | ⟨b, hb, hbv⟩
    · rw [hm, hD]
      simp [List.length_pos.mpr hn, List.length_pos.mpr he]
    · rw [hb, hD]
      simp [hbv, List.length_pos.mpr hn, List.length_pos.mpr he]
  · intro hmiss hD
    rw [Mermaid.processDiagrams_components]
    rcases hmiss with hm | ⟨b, hb, hbv⟩
    · rw [hm]
      rcases hD with hD | ⟨d, hD, hdn | hde⟩
      · simp [hD]
      · simp [hD, hdn]
      · simp [hD, hde]
    · rw [hb]
      rcases hD with hD | ⟨d, hD, hdn | hde⟩
      · simp [hbv, hD]
      · simp [hbv, hD, hdn]
      · simp [hbv, hD, hde]
namespace Mermaid

/-- Concrete inputs for the C6 witness: a fixed id-fallback environment, an
invalid generative architecture diagram, a valid generative data-flow
diagram, no generative components diagram, and one structured component. -/
def freshW : Fresh := fun _ => (0, "ab12")

/-- Generative diagrams for the C6 witness. -/
def aiW : DiagramsData :=
  { architecture := some ⟨.flowchart, "Arch", "hello world"⟩
    dataFlow := some ⟨.flowchart, "Flow", "flowchart LR\n    a --> b"⟩
    components := none }

/-- Structured architecture data for the C6 witness. -/
def archW : List ArchitectureComponent :=
  [{ id := "api", type := "backend", name := "API", technologies := none,
     connections := none }]

end Mermaid

/-- Witness for the amended C6: the invalid generative architecture text is
replaced by synthesis from the structured component, the valid generative
data-flow text is used verbatim, and the components slot (no generative text,
no structured data) is left unset. -/
theorem claim_C6_amended_witness :
    (Mermaid.processDiagrams Mermaid.freshW (some Mermaid.aiW)
      (some Mermaid.archW) none).architecture =
        some (Mermaid.generateArchitectureDiagram Mermaid.freshW Mermaid.archW) ∧
    (Mermaid.processDiagrams Mermaid.freshW (some Mermaid.aiW)
      (some Mermaid.archW) none).dataFlow =
        some ⟨.flowchart, "Flow", "flowchart LR\n    a --> b"⟩ ∧
    (Mermaid.processDiagrams Mermaid.freshW (some Mermaid.aiW)
      (some Mermaid.archW) none).components = none := by
  have t := claim_C6_amended Mermaid.freshW (some Mermaid.aiW)
    (some Mermaid.archW) none
  refine ⟨?_, ?_, ?_⟩
  · exact t.2.1 Mermaid.archW (Or.inr ⟨_, rfl, by decide⟩) rfl (by decide)
  · exact t.2.2.2.1 _ rfl (by decide)
  · exact t.2.2.2.2.2.2.2.2 (Or.inl rfl) (Or.inl rfl)
namespace UseAnalysis

theorem cacheGet_cacheSet_self (c : Cache) (k : String × Option String)
    (v : PartialResult) : cacheGet (cacheSet c k v) k = some v := by
  unfold cacheGet cacheSet
  by_cases h : c.any (fun p => p.1 = k)
  · rw [if_pos h, List.find?_map]
    have hfun : ((fun q : (String × Option String) × PartialResult =>
        decide (q.1 = k)) ∘
        (fun p : (String × Option String) × PartialResult =>
          if p.1 = k then (k, v) else p))
        = (fun p : (String × Option String) × PartialResult =>
            decide (p.1 = k)) := by
      funext p
      by_cases hp : p.1 = k <;> simp [hp]
    rw [hfun]
    rcases List.any_eq_true.mp h with ⟨q, hq, hqe⟩
    have hsome : (c.find? (fun p => decide (p.1 = k))).isSome := by
      rw [List.find?_isSome]
      exact ⟨q, hq, hqe⟩
    rcases Option.isSome_iff_exists.mp hsome with ⟨w, hw⟩
    have hw1 : w.1 = k := by simpa using List.find?_some hw
    rw [hw]
    simp [hw1]
  · rw [if_neg h, List.find?_append]
    have hnone : c.find? (fun p => decide (p.1 = k)) = none := by
      rw [List.find?_eq_none]
      intro x hx
      simpa using List.any_eq_false.mp (Bool.of_not_eq_true h) x hx
    simp [hnone, List.find?]

/-- Repository metadata for the C7 scenario. -/
def mdW : RepoMetadata :=
  { owner := "acme", name := "proj", fullName := "acme/proj",
    description := none, language := some "TypeScript", stars := 5, forks := 1,
    defaultBranch := "main" }

/-- A mid-stream consumer state: the metadata frame has arrived, the
narrative fields are still unset. -/
def curW : PartialResult :=
  { metadata := some mdW
    fileTree := some [.file "index.ts" 120]
    fileStats := some ⟨1, 0, [("TypeScript", 1)]⟩
    branch := some "main" }

end UseAnalysis

/-- C7 as stated is false: when the accumulated text contains no
brace-delimited candidate at all (`aiContent.match(/\x7b[\s\S]*\x7d/)` is
null), the `done` handler builds no fallback and caches nothing — the cache
stays empty and the narrative fields stay undefined rather than becoming
empty collections. -/
theorem claim_C7_counterexample :
    (UseAnalysis.handleDone (fun _ => none)
      "The model returned prose with no JSON object." UseAnalysis.curW []).2
      = [] ∧
    (UseAnalysis.handleDone (fun _ => none)
      "The model returned prose with no JSON object." UseAnalysis.curW []).1.insights
      = none ∧
    (UseAnalysis.handleDone (fun _ => none)
      "The model returned prose with no JSON object." UseAnalysis.curW []).1
      = UseAnalysis.curW :=
  ⟨rfl, rfl, rfl⟩

/-- C7 amended: when the accumulated text does contain a brace-delimited
candidate and parsing it fails, the handler keeps the deterministic fields
(metadata, file tree, file stats, branch), sets the listed narrative
collections to empty (summary to a fixed string) and persists that fallback
under the `(repositoryFullName, branch)` key; when no candidate exists it
leaves both the result and the cache untouched. -/
theorem claim_C7_amended (parse : String → Option UseAnalysis.AnalysisData)
    (aiContent : String) (cur : UseAnalysis.PartialResult)
    (cache : UseAnalysis.Cache) (md : UseAnalysis.RepoMetadata)
    (hmd : cur.metadata = some md) (hname : md.fullName ≠ "") :
    ((∃ c, UseAnalysis.braceExtract aiContent = some c ∧ parse c = none) →
      (UseAnalysis.handleDone parse aiContent cur cache).1.metadata = some md ∧
      (UseAnalysis.handleDone parse aiContent cur cache).1.fileTree = cur.fileTree ∧
      (UseAnalysis.handleDone parse aiContent cur cache).1.fileStats = cur.fileStats ∧
      (UseAnalysis.handleDone parse aiContent cur cache).1.branch = cur.branch ∧
      (UseAnalysis.handleDone parse aiContent cur cache).1.summary =
        some "Analysis completed with parsing issues." ∧
      (UseAnalysis.handleDone parse aiContent cur cache).1.insights = some [] ∧
      (UseAnalysis.handleDone parse aiContent cur cache).1.refactors = some [] ∧
      (UseAnalysis.handleDone parse aiContent cur cache).1.automations = some [] ∧
      (UseAnalysis.handleDone parse aiContent cur cache).1.architecture = some [] ∧
      (UseAnalysis.handleDone parse aiContent cur cache).1.dataFlow = some ⟨[], []⟩ ∧
      UseAnalysis.cacheGet (UseAnalysis.handleDone parse aiContent cur cache).2
        (md.fullName, cur.branch) =
        some (UseAnalysis.handleDone parse aiContent cur cache).1) ∧
    (UseAnalysis.braceExtract aiContent = none →
      UseAnalysis.handleDone parse aiContent cur cache = (cur, cache)) := by
  constructor
  · rintro ⟨c, hc, hp⟩
    unfold UseAnalysis.handleDone
    rw [hc]
    simp only [hp]
    have hcw : UseAnalysis.cacheWhenNamed cur (UseAnalysis.fallbackResult cur) cache
        = UseAnalysis.cacheSet cache (md.fullName, cur.branch)
            (UseAnalysis.fallbackResult cur) := by
      unfold UseAnalysis.cacheWhenNamed
      rw [hmd]
      dsimp only
      rw [if_pos hname]
    rw [hcw]
    refine ⟨?_, rfl, rfl, rfl, rfl, rfl, rfl, rfl, rfl, rfl, ?_⟩
    · show (UseAnalysis.fallbackResult cur).metadata = some md
      simpa [UseAnalysis.fallbackResult] using hmd
    · exact UseAnalysis.cacheGet_cacheSet_self cache _ _
  · intro hnone
    unfold UseAnalysis.handleDone
    rw [hnone]
/-- Witness for the amended C7 at a concrete state and a candidate that fails
to parse. -/
theorem claim_C7_amended_witness :
    ((∃ c, UseAnalysis.braceExtract "junk {not json} trailing" = some c ∧
        (fun _ : String => (none : Option UseAnalysis.AnalysisData)) c = none) →
      (UseAnalysis.handleDone (fun _ => none) "junk {not json} trailing"
        UseAnalysis.curW []).1.metadata = some UseAnalysis.mdW ∧
      (UseAnalysis.handleDone (fun _ => none) "junk {not json} trailing"
        UseAnalysis.curW []).1.fileTree = UseAnalysis.curW.fileTree ∧
      (UseAnalysis.handleDone (fun _ => none) "junk {not json} trailing"
        UseAnalysis.curW []).1.fileStats = UseAnalysis.curW.fileStats ∧
      (UseAnalysis.handleDone (fun _ => none) "junk {not json} trailing"
        UseAnalysis.curW []).1.branch = UseAnalysis.curW.branch ∧
      (UseAnalysis.handleDone (fun _ => none) "junk {not json} trailing"
        UseAnalysis.curW []).1.summary =
        some "Analysis completed with parsing issues." ∧
      (UseAnalysis.handleDone (fun _ => none) "junk {not json} trailing"
        UseAnalysis.curW []).1.insights = some [] ∧
      (UseAnalysis.handleDone (fun _ => none) "junk {not json} trailing"
        UseAnalysis.curW []).1.refactors = some [] ∧
      (UseAnalysis.handleDone (fun _ => none) "junk {not json} trailing"
        UseAnalysis.curW []).1.automations = some [] ∧
      (UseAnalysis.handleDone (fun _ => none) "junk {not json} trailing"
        UseAnalysis.curW []).1.architecture = some [] ∧
      (UseAnalysis.handleDone (fun _ => none) "junk {not json} trailing"
        UseAnalysis.curW []).1.dataFlow = some ⟨[], []⟩ ∧
      UseAnalysis.cacheGet (UseAnalysis.handleDone (fun _ => none)
          "junk {not json} trailing" UseAnalysis.curW []).2
        (UseAnalysis.mdW.fullName, UseAnalysis.curW.branch) =
        some (UseAnalysis.handleDone (fun _ => none) "junk {not json} trailing"
          UseAnalysis.curW []).1) ∧
    (UseAnalysis.braceExtract "junk {not json} trailing" = none →
      UseAnalysis.handleDone (fun _ => none) "junk {not json} trailing"
        UseAnalysis.curW [] = (UseAnalysis.curW, [])) :=
  claim_C7_amended (fun _ => none) "junk {not json} trailing" UseAnalysis.curW
    [] UseAnalysis.mdW rfl (by decide)
namespace AnalyzeRoute

/-- An 11 KiB request body: 11264 characters. -/
def bigBody : String := String.mk (List.replicate 11264 'a')

theorem bigBody_length : bigBody.length = 11264 := by
  have hdata : bigBody.data = List.replicate 11264 'a' := rfl
  show bigBody.data.length = 11264
  rw [hdata, List.length_replicate]

end AnalyzeRoute

/-- C8 as stated is false in its no-side-effects part: the handler consults
the rate limiter before the body-size checks, so an 11 KiB body is rejected
with the oversize-body outcome (before any JSON parse) but the client's
rate-limit record has already been created/incremented — the shared map
changes. -/
theorem claim_C8_counterexample :
    (AnalyzeRoute.postAdmission (fun _ : String => (none : Option Unit)) true
      ⟨60000, 10⟩ 0 ⟨"203.0.113.7", none, AnalyzeRoute.bigBody⟩ []).1 =
      AnalyzeRoute.AdmissionOutcome.bodyTooLarge ∧
    (AnalyzeRoute.postAdmission (fun _ : String => (none : Option Unit)) true
      ⟨60000, 10⟩ 0 ⟨"203.0.113.7", none, AnalyzeRoute.bigBody⟩ []).2 =
      [("203.0.113.7", ⟨1, 60000⟩)] := by
  have hgt : AnalyzeRoute.bigBody.length > AnalyzeRoute.MAX_BODY_SIZE := by
    rw [AnalyzeRoute.bigBody_length]
    norm_num [AnalyzeRoute.MAX_BODY_SIZE]
  have hfresh := RateLimit.checkRateLimit_fresh ⟨60000, 10⟩ 0 "203.0.113.7" []
    rfl
  unfold AnalyzeRoute.postAdmission
  rw [hfresh]
  dsimp only
  rw [if_pos hgt]
  exact ⟨rfl, rfl⟩

/-- C8 amended: an oversize body is rejected with the distinct oversize-body
outcome before any JSON parsing (the result does not depend on the parser)
and before any external fetch, but the admission prefix does have one server
state effect: the rate limiter, consulted first, has already recorded the
request. -/
theorem claim_C8_amended {α : Type} (p1 p2 : String → Option α)
    (configured : Bool) (cfg : RateLimit.Config) (now : Int)
    (req : AnalyzeRoute.RequestInfo) (st : RateLimit.RLState)
    (hbig : req.rawBody.length > AnalyzeRoute.MAX_BODY_SIZE) :
    AnalyzeRoute.postAdmission p1 configured cfg now req st =
      AnalyzeRoute.postAdmission p2 configured cfg now req st ∧
    ((AnalyzeRoute.postAdmission p1 configured cfg now req st).1 =
        AnalyzeRoute.AdmissionOutcome.misconfigured ∨
     (AnalyzeRoute.postAdmission p1 configured cfg now req st).1 =
        AnalyzeRoute.AdmissionOutcome.rateLimited ∨
     (AnalyzeRoute.postAdmission p1 configured cfg now req st).1 =
        AnalyzeRoute.AdmissionOutcome.bodyTooLarge) ∧
    (configured = true →
      (RateLimit.checkRateLimit cfg now req.clientIP st).1.allowed = true →
      (AnalyzeRoute.postAdmission p1 configured cfg now req st).1 =
        AnalyzeRoute.AdmissionOutcome.bodyTooLarge) ∧
    (AnalyzeRoute.postAdmission p1 configured cfg now req st).2 =
      (if configured then (RateLimit.checkRateLimit cfg now req.clientIP st).2
       else st) := by
  cases configured with
  | false => simp [AnalyzeRoute.postAdmission]
  | true =>
    unfold AnalyzeRoute.postAdmission
    simp only [Bool.true_eq_false, if_false, if_true]
    rcases hallow : (RateLimit.checkRateLimit cfg now req.clientIP st).1.allowed with _ | _
    · simp [hallow]
    · simp only [hallow]
      rcases hcl : req.contentLength with _ | n
      · simp [if_pos hbig]
      · by_cases hn : n > (AnalyzeRoute.MAX_BODY_SIZE : Int)
        · simp [hn]
        · simp [hn, if_pos hbig]

/-- Witness for the amended C8: a concrete oversize request, two different
parsers, a fresh client and an empty map. -/
theorem claim_C8_amended_witness :
    AnalyzeRoute.postAdmission (fun _ : String => (none : Option Nat)) true
      ⟨60000, 10⟩ 0 ⟨"203.0.113.7", none, AnalyzeRoute.bigBody⟩ [] =
      AnalyzeRoute.postAdmission (fun _ : String => some 7) true
        ⟨60000, 10⟩ 0 ⟨"203.0.113.7", none, AnalyzeRoute.bigBody⟩ [] ∧
    ((AnalyzeRoute.postAdmission (fun _ : String => (none : Option Nat)) true
        ⟨60000, 10⟩ 0 ⟨"203.0.113.7", none, AnalyzeRoute.bigBody⟩ []).1 =
        AnalyzeRoute.AdmissionOutcome.misconfigured ∨
     (AnalyzeRoute.postAdmission (fun _ : String => (none : Option Nat)) true
        ⟨60000, 10⟩ 0 ⟨"203.0.113.7", none, AnalyzeRoute.bigBody⟩ []).1 =
        AnalyzeRoute.AdmissionOutcome.rateLimited ∨
     (AnalyzeRoute.postAdmission (fun _ : String => (none : Option Nat)) true
        ⟨60000, 10⟩ 0 ⟨"203.0.113.7", none, AnalyzeRoute.bigBody⟩ []).1 =
        AnalyzeRoute.AdmissionOutcome.bodyTooLarge) ∧
    (true = true →
      (RateLimit.checkRateLimit ⟨60000, 10⟩ 0
        (AnalyzeRoute.RequestInfo.clientIP
          ⟨"203.0.113.7", none, AnalyzeRoute.bigBody⟩) []).1.allowed = true →
      (AnalyzeRoute.postAdmission (fun _ : String => (none : Option Nat)) true
        ⟨60000, 10⟩ 0 ⟨"203.0.113.7", none, AnalyzeRoute.bigBody⟩ []).1 =
        AnalyzeRoute.AdmissionOutcome.bodyTooLarge) ∧
    (AnalyzeRoute.postAdmission (fun _ : String => (none : Option Nat)) true
      ⟨60000, 10⟩ 0 ⟨"203.0.113.7", none, AnalyzeRoute.bigBody⟩ []).2 =
      (if true then (RateLimit.checkRateLimit ⟨60000, 10⟩ 0
        (AnalyzeRoute.RequestInfo.clientIP
          ⟨"203.0.113.7", none, AnalyzeRoute.bigBody⟩) []).2
       else []) :=
  claim_C8_amended (fun _ => none) (fun _ => some 7) true ⟨60000, 10⟩ 0
    ⟨"203.0.113.7", none, AnalyzeRoute.bigBody⟩ []
    (by show AnalyzeRoute.bigBody.length > AnalyzeRoute.MAX_BODY_SIZE
        rw [AnalyzeRoute.bigBody_length]
        norm_num [AnalyzeRoute.MAX_BODY_SIZE])
